import Mathlib

/-
Verification of the record-transformation and identity-mapping layer of the
X-Series clone tool (src/xseries_demo/clone.py) and of its incremental
operation logger (src/xseries_demo/output.py), as a shallow embedding.

JSON-like dynamic values are modelled by the inductive type `Value`; a Python
dict with string keys (an API record) is `Record := List (String × Value)`
with insertion-order semantics, and an identity map (a Python dict keyed by
arbitrary values) is `IdMap := List (Value × Value)`.  Python `dict.get`,
`dict[k] = v`, `del dict[k]` and `k in dict` are modelled by `dlookup`,
`dictSet`, `dictDel` and key membership; numbers are modelled as integers
(no claim under study depends on fractional values).  Functions that can
raise in Python are modelled in the `Except String` monad.
-/

inductive Value where
  | vnull
  | vbool (b : Bool)
  | vint (n : Int)
  | vstr (s : String)
  | vlist (elems : List Value)
  | vdict (fields : List (String × Value))

mutual

/-- Structural boolean equality on JSON values (Python `==` on these shapes). -/
def Value.beq : Value → Value → Bool
  | .vnull, .vnull => true
  | .vbool a, .vbool b => a == b
  | .vint a, .vint b => a == b
  | .vstr a, .vstr b => a == b
  | .vlist a, .vlist b => Value.beqList a b
  | .vdict a, .vdict b => Value.beqFields a b
  | _, _ => false

/-- Elementwise equality of value lists. -/
def Value.beqList : List Value → List Value → Bool
  | [], [] => true
  | x :: xs, y :: ys => Value.beq x y && Value.beqList xs ys
  | _, _ => false

/-- Elementwise equality of key-value field lists. -/
def Value.beqFields : List (String × Value) → List (String × Value) → Bool
  | [], [] => true
  | (k, x) :: xs, (l, y) :: ys => k == l && Value.beq x y && Value.beqFields xs ys
  | _, _ => false

end

mutual

theorem Value.beq_iff : ∀ a b : Value, Value.beq a b = true ↔ a = b
  | .vnull, .vnull => by simp [Value.beq]
  | .vbool a, .vbool b => by simp [Value.beq]
  | .vint a, .vint b => by simp [Value.beq]
  | .vstr a, .vstr b => by simp [Value.beq]
  | .vlist a, .vlist b => by
      rw [show Value.beq (.vlist a) (.vlist b) = Value.beqList a b from rfl]
      rw [Value.beqList_iff a b]
      simp
  | .vdict a, .vdict b => by
      rw [show Value.beq (.vdict a) (.vdict b) = Value.beqFields a b from rfl]
      rw [Value.beqFields_iff a b]
      simp
  | .vnull, .vbool _
  | .vnull, .vint _
  | .vnull, .vstr _
  | .vnull, .vlist _
  | .vnull, .vdict _
  | .vbool _, .vnull
  | .vbool _, .vint _
  | .vbool _, .vstr _
  | .vbool _, .vlist _
  | .vbool _, .vdict _
  | .vint _, .vnull
  | .vint _, .vbool _
  | .vint _, .vstr _
  | .vint _, .vlist _
  | .vint _, .vdict _
  | .vstr _, .vnull
  | .vstr _, .vbool _
  | .vstr _, .vint _
  | .vstr _, .vlist _
  | .vstr _, .vdict _
  | .vlist _, .vnull
  | .vlist _, .vbool _
  | .vlist _, .vint _
  | .vlist _, .vstr _
  | .vlist _, .vdict _
  | .vdict _, .vnull
  | .vdict _, .vbool _
  | .vdict _, .vint _
  | .vdict _, .vstr _
  | .vdict _, .vlist _ => iff_of_false (fun h => Bool.noConfusion h) (fun h => Value.noConfusion h)

theorem Value.beqList_iff : ∀ a b : List Value, Value.beqList a b = true ↔ a = b
  | [], [] => by simp [Value.beqList]
  | x :: xs, y :: ys => by
      rw [show Value.beqList (x :: xs) (y :: ys) = (Value.beq x y && Value.beqList xs ys) from rfl]
      rw [Bool.and_eq_true, Value.beq_iff x y, Value.beqList_iff xs ys]
      simp
  | [], _ :: _ => by simp [Value.beqList]
  | _ :: _, [] => by simp [Value.beqList]

theorem Value.beqFields_iff : ∀ a b : List (String × Value), Value.beqFields a b = true ↔ a = b
  | [], [] => by simp [Value.beqFields]
  | (k, x) :: xs, (l, y) :: ys => by
      rw [show Value.beqFields ((k, x) :: xs) ((l, y) :: ys) =
            (k == l && Value.beq x y && Value.beqFields xs ys) from rfl]
      rw [Bool.and_eq_true, Bool.and_eq_true, Value.beq_iff x y, Value.beqFields_iff xs ys]
      simp [beq_iff_eq]
  | [], _ :: _ => by simp [Value.beqFields]
  | _ :: _, [] => by simp [Value.beqFields]

end

instance : DecidableEq Value := fun a b => decidable_of_iff _ (Value.beq_iff a b)

/-- Test for the Python value `None`. -/
def Value.isNull : Value → Bool
  | .vnull => true
  | _ => false

/-- Test for a Python dict value (the `isinstance(value, dict)` checks). -/
def Value.isDict : Value → Bool
  | .vdict _ => true
  | _ => false

/-- Python truthiness of a JSON value (`if value:`): `None`, `False`, `0`,
empty strings, empty lists and empty dicts are falsy. -/
def Value.truthy : Value → Bool
  | .vnull => false
  | .vbool b => b
  | .vint n => n != 0
  | .vstr s => !(s == "")
  | .vlist l => !l.isEmpty
  | .vdict d => !d.isEmpty

/-- An API record: a Python dict with string keys, in insertion order. -/
abbrev Record : Type := List (String × Value)

/-- An identity map: a Python dict keyed by arbitrary values
(`source identifier -> destination identifier`). -/
abbrev IdMap : Type := List (Value × Value)

/-- Lookup of a string key in a record; `none` models an absent key. -/
def dlookup : Record → String → Option Value
  | [], _ => none
  | (k, v) :: rest, key => if k == key then some v else dlookup rest key

/-- Python `record.get(key)`: `None` when the key is absent. -/
def dget (r : Record) (key : String) : Value := (dlookup r key).getD .vnull

/-- Python `record.get(key, dflt)`: the default only replaces an absent key,
never a present null value. -/
def dgetD (r : Record) (key : String) (dflt : Value) : Value := (dlookup r key).getD dflt

/-- Python `key in record`. -/
def hasKey (r : Record) (key : String) : Bool := (dlookup r key).isSome

/-- Python `record[key] = v`: update the value in place if the key exists
(its position is preserved), otherwise append the new pair. -/
def dictSet : Record → String → Value → Record
  | [], key, v => [(key, v)]
  | (k, w) :: rest, key, v =>
      if k == key then (k, v) :: rest else (k, w) :: dictSet rest key v

/-- Python `del record[key]`. -/
def dictDel (r : Record) (key : String) : Record := r.filter (fun kv => !(kv.1 == key))

/-- Lookup of a value key in an identity map (`mapping[key]`, and
`key in mapping` via `isSome`). -/
def vlookup : IdMap → Value → Option Value
  | [], _ => none
  | (k, v) :: rest, key => if Value.beq k key then some v else vlookup rest key

/-- Python `mapping[key] = v` on a value-keyed dict. -/
def vupdate : IdMap → Value → Value → IdMap
  | [], key, v => [(key, v)]
  | (k, w) :: rest, key, v =>
      if Value.beq k key then (k, v) :: rest else (k, w) :: vupdate rest key v

/-- Python `pat in s` for a non-empty pattern `pat`: substring containment. -/
def strContains (s pat : String) : Bool := (s.splitOn pat).length != 1

/-- Python `error_message.lower() if error_message else ""`: the lower-cased
message, with the empty message left empty. -/
def lowerMessage (error_message : String) : String :=
  if error_message == "" then "" else error_message.toLower

/-- Embedding of `classify_error` (clone.py): classify an API error into a
category for reporting, from the optional HTTP status code and the error
message.  The unused `response_body` parameter of the source is kept. -/
def classify_error (status_code : Option Int) (error_message : String)
    (_response_body : Option Value) : String :=
  match status_code with
  | none => "unknown"
  | some code =>
    if code == 403 then "permission"
    else if code == 401 then "permission"
    else if code ≥ 500 then "server"
    else
      let msg_lower := lowerMessage error_message
      if strContains msg_lower "already exists" || strContains msg_lower "duplicate" then
        "duplicate"
      else if strContains msg_lower "not found" then "not_found"
      else if code == 400 || code == 422 then "validation"
      else if code == 404 then "not_found"
      else "unknown"

/-- Modelled from the spec and claim C9 wording: the six-way error taxonomy
in priority order (permission, server, duplicate, not-found, validation,
unknown), with a missing status code classified as unknown. -/
def claimErrorTaxonomy (status_code : Option Int) (error_message : String) : String :=
  match status_code with
  | none => "unknown"
  | some code =>
    let msg_lower := lowerMessage error_message
    if code == 401 || code == 403 then "permission"
    else if code ≥ 500 then "server"
    else if strContains msg_lower "duplicate" || strContains msg_lower "already exists" then
      "duplicate"
    else if strContains msg_lower "not found" || code == 404 then "not_found"
    else if code == 400 || code == 422 then "validation"
    else "unknown"

/-- Fields accepted by POST /products (the whitelist in clone.py). -/
def PRODUCT_ALLOWED_FIELDS : List String :=
  ["name", "description", "handle", "sku", "product_codes", "source", "source_id",
   "source_variant_id", "is_active", "price_including_tax", "price_excluding_tax",
   "supply_price", "supplier_id", "supplier_code", "product_suppliers",
   "product_type_id", "product_category_id", "brand_id", "tag_ids",
   "account_code_sale", "account_code_purchase", "loyalty_amount", "weight",
   "weight_unit", "length", "width", "height", "dimensions_unit",
   "all_outlets_tax", "outlet_taxes"]

/-- Fields to strip when transforming customers for creation (clone.py). -/
def CUSTOMER_STRIP_FIELDS : List String :=
  ["id", "version", "created_at", "updated_at", "deleted_at", "customer_code",
   "year_to_date", "balance", "loyalty_balance", "loyalty_email_sent",
   "custom_field_1", "custom_field_2", "custom_field_3", "custom_field_4"]

/-- Nested cleanup of one entry of `product_codes`: dict entries keep only the
non-null `type` and `code` fields; non-dict entries are skipped. -/
def cleanProductCode (code : Value) : Option Record :=
  match code with
  | .vdict d => some (d.filter (fun kv => (kv.1 == "type" || kv.1 == "code") && !kv.2.isNull))
  | _ => none

/-- Nested cleanup of one entry of `product_suppliers`: dict entries keep only
the non-null `supplier_id`, `price` and `code` fields, with `supplier_id`
substituted through the supplier map and dropped when unmapped; entries that
end up empty, and non-dict entries, are skipped.  `supplierFieldStep` is one
iteration of that per-entry loop. -/
def supplierFieldStep (supplier_mapping : IdMap) (acc : Record)
    (kv : String × Value) : Record :=
  if !(kv.1 == "supplier_id" || kv.1 == "price" || kv.1 == "code") || kv.2.isNull then acc
  else if kv.1 == "supplier_id" then
    match vlookup supplier_mapping kv.2 with
    | some mapped => dictSet acc kv.1 mapped
    | none => acc
  else dictSet acc kv.1 kv.2

def cleanProductSupplier (supplier_mapping : IdMap) (sup : Value) : Option Record :=
  match sup with
  | .vdict d =>
      let supplier_cleaned := d.foldl (supplierFieldStep supplier_mapping) []
      if supplier_cleaned.isEmpty then none else some supplier_cleaned
  | _ => none

/-- One iteration of the whitelist loop of `transform_product_for_creation`. -/
def productFieldStep (brand_mapping supplier_mapping : IdMap)
    (t : Record) (kv : String × Value) : Record :=
  if !(PRODUCT_ALLOWED_FIELDS.contains kv.1) then t
  else if kv.2.isNull then t
  else if kv.1 == "brand_id" then
    match vlookup brand_mapping kv.2 with
    | some mapped => dictSet t kv.1 mapped
    | none => t
  else if kv.1 == "supplier_id" then
    match vlookup supplier_mapping kv.2 with
    | some mapped => dictSet t kv.1 mapped
    | none => t
  else if kv.1 == "product_codes" then
    match kv.2 with
    | .vlist codes =>
        let cleaned := codes.filterMap cleanProductCode
        if cleaned.isEmpty then t else dictSet t kv.1 (.vlist (cleaned.map .vdict))
    | _ => dictSet t kv.1 kv.2
  else if kv.1 == "product_suppliers" then
    match kv.2 with
    | .vlist sups =>
        let cleaned := sups.filterMap (cleanProductSupplier supplier_mapping)
        if cleaned.isEmpty then t else dictSet t kv.1 (.vlist (cleaned.map .vdict))
    | _ => dictSet t kv.1 kv.2
  else dictSet t kv.1 kv.2

/-- The `active` to `is_active` rename: when the whitelist pass produced no
`is_active` and the source has an `active` key, its value is copied
verbatim (even when null). -/
def productRename (product t : Record) : Record :=
  if !(hasKey t "is_active") && hasKey product "active" then
    dictSet t "is_active" (dget product "active")
  else t

/-- The mutually exclusive price fields: when both survived projection, keep
exactly the one selected by the tax mode flag. -/
def productPriceFix (tax_inclusive : Bool) (t : Record) : Record :=
  if hasKey t "price_including_tax" && hasKey t "price_excluding_tax" then
    if tax_inclusive then dictDel t "price_excluding_tax"
    else dictDel t "price_including_tax"
  else t

/-- Embedding of `transform_product_for_creation` (clone.py): whitelist
projection with brand and supplier identity substitution, the
`active` to `is_active` rename, and the mutually exclusive price fields
resolved by the `tax_inclusive` flag. -/
def transform_product_for_creation (product : Record) (tax_inclusive : Bool)
    (brand_mapping supplier_mapping : IdMap) : Record :=
  productPriceFix tax_inclusive
    (productRename product (product.foldl (productFieldStep brand_mapping supplier_mapping) []))

/-- One iteration of the strip loop of `transform_customer_for_creation`. -/
def customerFieldStep (t : Record) (kv : String × Value) : Record :=
  if CUSTOMER_STRIP_FIELDS.contains kv.1 then t
  else if kv.2.isNull then t
  else if kv.1 == "customer_group" && kv.2.isDict then t
  else dictSet t kv.1 kv.2

/-- Embedding of `transform_customer_for_creation` (clone.py): strip-list
projection which drops null values and a dict-shaped `customer_group`. -/
def transform_customer_for_creation (customer : Record) : Record :=
  customer.foldl customerFieldStep []

/-- One step of the destination index comprehension of
`map_outlets_by_name`, built with direct subscripting `outlet["name"]`,
`outlet["id"]`: a missing key raises (modelled by `Except.error`). -/
def outletIndexStep (idx : IdMap) (outlet : Record) : Except String IdMap :=
  match dlookup outlet "name" with
  | none => Except.error "KeyError: name"
  | some n =>
    match dlookup outlet "id" with
    | none => Except.error "KeyError: id"
    | some i => Except.ok (vupdate idx n i)

/-- Destination name index of `map_outlets_by_name` (the dict
comprehension over destination outlets). -/
def outletNameIndex (dest_outlets : List Record) : Except String IdMap :=
  dest_outlets.foldlM outletIndexStep []

/-- One step of the source loop of `map_outlets_by_name`: direct
subscripting of `id` and `name`, then the name lookup. -/
def outletMapStep (dest_by_name mapping : IdMap) (outlet : Record) :
    Except String IdMap :=
  match dlookup outlet "id" with
  | none => Except.error "KeyError: id"
  | some source_id =>
    match dlookup outlet "name" with
    | none => Except.error "KeyError: name"
    | some n =>
      match vlookup dest_by_name n with
      | some d => Except.ok (vupdate mapping source_id d)
      | none => Except.ok mapping

/-- Embedding of `map_outlets_by_name` (clone.py): source-to-destination
outlet identifiers matched by exact name, with direct subscripting that
raises on records missing `id` or `name`. -/
def map_outlets_by_name (source_outlets dest_outlets : List Record) :
    Except String IdMap := do
  let dest_by_name ← outletNameIndex dest_outlets
  source_outlets.foldlM (outletMapStep dest_by_name) []

/-- Destination index of `map_by_name`: a name-to-identifier dict built with
`item.get`, keeping only items with a truthy name (last write wins). -/
def nameIndex (dest_items : List Record) : IdMap :=
  dest_items.foldl (fun idx item =>
    let n := dget item "name"
    if n.truthy then vupdate idx n (dget item "id") else idx) []

/-- One iteration of the source loop of `map_by_name`. -/
def mapByNameStep (dest_by_name : IdMap) (mapping : IdMap) (item : Record) : IdMap :=
  let source_id := dget item "id"
  let n := dget item "name"
  if source_id.truthy && n.truthy then
    match vlookup dest_by_name n with
    | some d => vupdate mapping source_id d
    | none => mapping
  else mapping

/-- Embedding of `map_by_name` (clone.py): source-to-destination identifiers
matched by exact name, built entirely with `dict.get`, so items missing `id`
or `name` are skipped and nothing raises. -/
def map_by_name (source_items dest_items : List Record) : IdMap :=
  let dest_by_name := nameIndex dest_items
  source_items.foldl (mapByNameStep dest_by_name) []

/-- Transform of one sale line item (the body of the `register_sale_products`
loop in `transform_sale_for_creation`): skipped (`none`) when the product has
no mapping; otherwise the destination product identifier is substituted,
absent numeric fields get defaults, and the tax reference is substituted only
when truthy and mapped, otherwise omitted. -/
def transformLineItem (product_mapping tax_mapping : IdMap) (item : Record) : Option Record :=
  match vlookup product_mapping (dget item "product_id") with
  | none => none
  | some newPid =>
      let transformed_item : Record :=
        [("product_id", newPid),
         ("quantity", dgetD item "quantity" (.vint 1)),
         ("price", dgetD item "price" (.vint 0)),
         ("discount", dgetD item "discount" (.vint 0)),
         ("loyalty_value", dgetD item "loyalty_value" (.vint 0))]
      let source_tax_id := dget item "tax_id"
      if source_tax_id.truthy then
        match vlookup tax_mapping source_tax_id with
        | some newTax => some (dictSet transformed_item "tax_id" newTax)
        | none => some transformed_item
      else some transformed_item

/-- Transform of one sale payment (the body of the `register_sale_payments`
loop): skipped when the payment type has no mapping, otherwise the identifier
is substituted and an absent amount defaults to zero. -/
def transformPayment (payment_type_mapping : IdMap) (payment : Record) : Option Record :=
  match vlookup payment_type_mapping (dget payment "payment_type_id") with
  | none => none
  | some newPt =>
      some [("payment_type_id", newPt), ("amount", dgetD payment "amount" (.vint 0))]

/-- Python `for item in v: item.get(...)` over a value expected to be a list
of dicts.  A list whose elements are not all dicts, a non-empty string or
non-empty dict (whose elements are not dicts either), or a non-iterable value
raise in Python at the corresponding point of the loop; iterating an empty
string or empty dict yields no elements. -/
def pyIterRecords (v : Value) : Except String (List Record) :=
  match v with
  | .vlist elems => elems.mapM (fun e =>
      match e with
      | .vdict d => Except.ok d
      | _ => Except.error "AttributeError: get")
  | .vstr s => if s == "" then Except.ok [] else Except.error "AttributeError: get"
  | .vdict d => if d.isEmpty then Except.ok [] else Except.error "AttributeError: get"
  | _ => Except.error "TypeError: not iterable"

/-- The final loop of `transform_sale_for_creation`: copy each listed field
verbatim when present and non-null. -/
def copyVerbatimFields (sale : Record) (fields : List String) (t : Record) : Record :=
  fields.foldl (fun acc field =>
    match dlookup sale field with
    | some v => if v.isNull then acc else dictSet acc field v
    | none => acc) t

/-- The optional payments section: omitted entirely when no payment survives
the payment-type filtering (the sale itself is kept). -/
def saleWithPayments (transformed_payments : List Record) (t : Record) : Record :=
  if transformed_payments.isEmpty then t
  else dictSet t "register_sale_payments" (.vlist (transformed_payments.map .vdict))

/-- The fixed head of the transformed sale payload. -/
def saleBase (sale : Record) (newReg newUser : Value) : Record :=
  [("register_id", newReg), ("user_id", newUser),
   ("status", .vstr "CLOSED"), ("sale_date", dget sale "sale_date")]

/-- The optional customer substitution: included only when the source
customer identifier is truthy and mapped. -/
def saleWithCustomer (customer_mapping : IdMap) (sale : Record) (t : Record) : Record :=
  if (dget sale "customer_id").truthy then
    match vlookup customer_mapping (dget sale "customer_id") with
    | some newCust => dictSet t "customer_id" newCust
    | none => t
  else t

/-- Embedding of `transform_sale_for_creation` (clone.py).  Returns
`Except.ok none` when the transformer rejects the sale (the Python
`return None`), `Except.ok (some payload)` on success, and `Except.error`
where the Python code would raise on an ill-shaped record. -/
def transform_sale_for_creation (sale : Record)
    (product_mapping customer_mapping register_mapping user_mapping
     tax_mapping payment_type_mapping : IdMap) : Except String (Option Record) :=
  match vlookup register_mapping (dget sale "register_id") with
  | none => Except.ok none
  | some newReg =>
    match vlookup user_mapping (dget sale "user_id") with
    | none => Except.ok none
    | some newUser =>
      let transformed := saleWithCustomer customer_mapping sale (saleBase sale newReg newUser)
      match pyIterRecords (dgetD sale "register_sale_products" (.vlist [])) with
      | .error e => Except.error e
      | .ok line_items =>
        let transformed_items := line_items.filterMap (transformLineItem product_mapping tax_mapping)
        if transformed_items.isEmpty then Except.ok none
        else
          let transformed := dictSet transformed "register_sale_products"
            (.vlist (transformed_items.map .vdict))
          match pyIterRecords (dgetD sale "register_sale_payments" (.vlist [])) with
          | .error e => Except.error e
          | .ok payments =>
            Except.ok (some (copyVerbatimFields sale
              ["note", "short_code", "total_price", "total_tax"]
              (saleWithPayments (payments.filterMap (transformPayment payment_type_mapping))
                transformed)))

/-- The entity types the clone logger tracks (the keys of its summary). -/
inductive EntityType where
  | brands
  | suppliers
  | products
  | customers
  | sales
  | inventory
  deriving DecidableEq

/-- The JSON name of an entity type. -/
def EntityType.jsonName : EntityType → String
  | .brands => "brands"
  | .suppliers => "suppliers"
  | .products => "products"
  | .customers => "customers"
  | .sales => "sales"
  | .inventory => "inventory"

/-- Whether per-record results are tracked for this entity type (`inventory`
only gets counters, no result arrays or error histogram). -/
def EntityType.tracked : EntityType → Bool
  | .inventory => false
  | _ => true

/-- A success and failure counter pair of the summary section. -/
structure EntityCounts where
  success : Nat
  failed : Nat

/-- A null-padded optional string, as stored in operation entries. -/
def optStr : Option String → Value
  | some s => .vstr s
  | none => .vnull

/-- Bump a string-keyed counter dict (`counts.get(k, 0) + 1`). -/
def bumpCount : List (String × Nat) → String → List (String × Nat)
  | [], k => [(k, 1)]
  | (k', n) :: rest, k =>
      if k' == k then (k', n + 1) :: rest else (k', n) :: bumpCount rest k

/-- The in-memory JSON document of `CloneLogger` (output.py): metadata,
per-entity summary counters, per-entity error histograms, per-entity result
arrays and the raw operation timeline. -/
structure CloneData where
  started_at : String
  source_domain : String
  dest_domain : String
  status : String
  completed_at : Option String
  summary : EntityType → EntityCounts
  error_summary : EntityType → List (String × Nat)
  results : EntityType → List Record
  failed_results : EntityType → List Record
  operations : List Record

/-- The freshly initialised document written by `CloneLogger.__init__`. -/
def CloneData.init (started_at source_domain dest_domain : String) : CloneData :=
  { started_at := started_at
    source_domain := source_domain
    dest_domain := dest_domain
    status := "in_progress"
    completed_at := none
    summary := fun _ => { success := 0, failed := 0 }
    error_summary := fun _ => []
    results := fun _ => []
    failed_results := fun _ => []
    operations := [] }

/-- The operation entry appended by `log_success` (identifier included only
when truthy). -/
def successOperationEntry (timestamp : String) (entity_type : EntityType)
    (source_id new_id : Option String) (status_code : Int)
    (identifier : Option String) : Record :=
  let entry : Record :=
    [("timestamp", .vstr timestamp), ("status", .vstr "success"),
     ("entity_type", .vstr entity_type.jsonName), ("status_code", .vint status_code),
     ("source_id", optStr source_id), ("new_id", optStr new_id)]
  match identifier with
  | some i => if i == "" then entry else dictSet entry "identifier" (.vstr i)
  | none => entry

/-- The result-array entry appended by `log_success` for tracked entity
types, extended with the truthy identifier and any extra data. -/
def successResultEntry (source_id new_id : Option String)
    (identifier : Option String) (extra_data : Option Record) : Record :=
  let e : Record := [("source_id", optStr source_id), ("new_id", optStr new_id)]
  let e := match identifier with
    | some i => if i == "" then e else dictSet e "identifier" (.vstr i)
    | none => e
  match extra_data with
  | some ed => if ed.isEmpty then e else ed.foldl (fun acc kv => dictSet acc kv.1 kv.2) e
  | none => e

/-- The in-memory mutation performed by `CloneLogger.log_success`: append the
operation entry, bump the success counter, and append the result entry for
tracked entity types. -/
def CloneData.logSuccess (d : CloneData) (timestamp : String)
    (entity_type : EntityType) (source_id new_id : Option String)
    (status_code : Int) (identifier : Option String)
    (extra_data : Option Record) : CloneData :=
  let entry := successOperationEntry timestamp entity_type source_id new_id status_code identifier
  let counts := d.summary entity_type
  let d := { d with
    operations := d.operations ++ [entry]
    summary := Function.update d.summary entity_type
                 { success := counts.success + 1, failed := counts.failed } }
  if entity_type.tracked then
    { d with results := Function.update d.results entity_type
                          (d.results entity_type ++
                            [successResultEntry source_id new_id identifier extra_data]) }
  else d

/-- The operation entry appended by `log_failure` (identifier, request
payload and response body included only when truthy). -/
def failureOperationEntry (timestamp : String) (entity_type : EntityType)
    (source_id : Option String) (status_code : Option Int)
    (error_message error_type : String) (request_payload : Option Record)
    (response_body : Option Value) (identifier : Option String) : Record :=
  let entry : Record :=
    [("timestamp", .vstr timestamp), ("status", .vstr "failed"),
     ("entity_type", .vstr entity_type.jsonName),
     ("status_code", match status_code with | some c => .vint c | none => .vnull),
     ("source_id", optStr source_id), ("error", .vstr error_message),
     ("error_type", .vstr error_type)]
  let entry := match identifier with
    | some i => if i == "" then entry else dictSet entry "identifier" (.vstr i)
    | none => entry
  let entry := match request_payload with
    | some p => if p.isEmpty then entry else dictSet entry "request_payload" (.vdict p)
    | none => entry
  match response_body with
  | some b => if b.truthy then dictSet entry "response_body" b else entry
  | none => entry

/-- The failed-result-array entry appended by `log_failure` for tracked
entity types. -/
def failureResultEntry (error_message error_type : String)
    (identifier : Option String) (extra_data : Option Record) : Record :=
  let e : Record := [("reason", .vstr error_message), ("error_type", .vstr error_type)]
  let e := match identifier with
    | some i => if i == "" then e else dictSet e "identifier" (.vstr i)
    | none => e
  match extra_data with
  | some ed => if ed.isEmpty then e else ed.foldl (fun acc kv => dictSet acc kv.1 kv.2) e
  | none => e

/-- The in-memory mutation performed by `CloneLogger.log_failure`: append the
operation entry, bump the failure counter, and for tracked entity types bump
the error histogram bucket and append the failed-result entry. -/
def CloneData.logFailure (d : CloneData) (timestamp : String)
    (entity_type : EntityType) (source_id : Option String)
    (status_code : Option Int) (error_message error_type : String)
    (request_payload : Option Record) (response_body : Option Value)
    (identifier : Option String) (extra_data : Option Record) : CloneData :=
  let entry := failureOperationEntry timestamp entity_type source_id status_code
    error_message error_type request_payload response_body identifier
  let counts := d.summary entity_type
  let d := { d with
    operations := d.operations ++ [entry]
    summary := Function.update d.summary entity_type
                 { success := counts.success, failed := counts.failed + 1 } }
  if entity_type.tracked then
    { d with
      error_summary := Function.update d.error_summary entity_type
                         (bumpCount (d.error_summary entity_type) error_type)
      failed_results := Function.update d.failed_results entity_type
                          (d.failed_results entity_type ++
                            [failureResultEntry error_message error_type identifier extra_data]) }
  else d

/-- The in-memory mutation performed by `CloneLogger.set_inventory_counts`. -/
def CloneData.setInventoryCounts (d : CloneData) (updated failed : Nat) : CloneData :=
  { d with summary := Function.update d.summary .inventory
                        { success := updated, failed := failed } }

/-- The in-memory mutation performed by `CloneLogger.complete`. -/
def CloneData.setComplete (d : CloneData) (timestamp status : String) : CloneData :=
  { d with completed_at := some timestamp, status := status }

/-- The state of a `CloneLogger`: the in-memory document and the document
persisted at the logger's file path (reading the file back parses to
`file`). -/
structure LoggerState where
  data : CloneData
  file : CloneData

/-- `CloneLogger._write`: synchronously mirror the in-memory document to the
file. -/
def loggerWrite (s : LoggerState) : LoggerState := { s with file := s.data }

/-- `CloneLogger.__init__`: initialise the document and write it at once. -/
def CloneLogger.mk (started_at source_domain dest_domain : String) : LoggerState :=
  loggerWrite { data := CloneData.init started_at source_domain dest_domain,
                file := CloneData.init started_at source_domain dest_domain }

/-- `CloneLogger.log_success`: mutate the in-memory document, then `_write`. -/
def CloneLogger.log_success (s : LoggerState) (timestamp : String)
    (entity_type : EntityType) (source_id new_id : Option String)
    (status_code : Int) (identifier : Option String)
    (extra_data : Option Record) : LoggerState :=
  loggerWrite { s with data := s.data.logSuccess timestamp entity_type source_id
                                 new_id status_code identifier extra_data }

/-- `CloneLogger.log_failure`: mutate the in-memory document, then `_write`. -/
def CloneLogger.log_failure (s : LoggerState) (timestamp : String)
    (entity_type : EntityType) (source_id : Option String)
    (status_code : Option Int) (error_message error_type : String)
    (request_payload : Option Record) (response_body : Option Value)
    (identifier : Option String) (extra_data : Option Record) : LoggerState :=
  loggerWrite { s with data := s.data.logFailure timestamp entity_type source_id
                                 status_code error_message error_type request_payload
                                 response_body identifier extra_data }

/-- `CloneLogger.set_inventory_counts`: mutate the counters, then `_write`. -/
def CloneLogger.set_inventory_counts (s : LoggerState) (updated failed : Nat) : LoggerState :=
  loggerWrite { s with data := s.data.setInventoryCounts updated failed }

/-- `CloneLogger.complete`: stamp the completion metadata, then `_write`. -/
def CloneLogger.complete (s : LoggerState) (timestamp status : String) : LoggerState :=
  loggerWrite { s with data := s.data.setComplete timestamp status }

/-- An identity map is well formed when no destination value is null (the
clone orchestrator only inserts identifiers returned by successful creates,
and name indices built from records carrying an `id`). -/
def idMapNullFree (m : IdMap) : Prop := ∀ kv ∈ m, kv.2.isNull = false

instance (m : IdMap) : Decidable (idMapNullFree m) :=
  inferInstanceAs (Decidable (∀ kv ∈ m, kv.2.isNull = false))

theorem dlookup_dictSet (d : Record) (k k' : String) (v : Value) :
    dlookup (dictSet d k v) k' = if k' = k then some v else dlookup d k' := by
  induction d with
  | nil =>
      by_cases h : k' = k
      · subst h; simp [dictSet, dlookup]
      · have hb : (k == k') = false := beq_eq_false_iff_ne.mpr (Ne.symm h)
        simp [dictSet, dlookup, hb, h]
  | cons a rest ih =>
      obtain ⟨ka, va⟩ := a
      by_cases hk : ka = k
      · subst hk
        rw [show dictSet ((ka, va) :: rest) ka v = (ka, v) :: rest from by simp [dictSet]]
        by_cases h : k' = ka
        · subst h; simp [dlookup]
        · have hb : (ka == k') = false := beq_eq_false_iff_ne.mpr (Ne.symm h)
          simp [dlookup, hb, h]
      · have hb : (ka == k) = false := beq_eq_false_iff_ne.mpr hk
        rw [show dictSet ((ka, va) :: rest) k v = (ka, va) :: dictSet rest k v from by
              simp [dictSet, hb]]
        by_cases h : k' = ka
        · subst h
          simp [dlookup, hk]
        · have hb2 : (ka == k') = false := beq_eq_false_iff_ne.mpr (Ne.symm h)
          simp [dlookup, hb2, ih]

theorem mem_dictSet {p : String × Value} {d : Record} {k : String} {v : Value}
    (h : p ∈ dictSet d k v) : p ∈ d ∨ p = (k, v) := by
  induction d with
  | nil =>
      simp [dictSet] at h
      exact Or.inr h
  | cons a rest ih =>
      obtain ⟨ka, va⟩ := a
      by_cases hk : ka = k
      · subst hk
        rw [show dictSet ((ka, va) :: rest) ka v = (ka, v) :: rest from by simp [dictSet]] at h
        rcases List.mem_cons.mp h with h1 | h1
        · exact Or.inr h1
        · exact Or.inl (List.mem_cons_of_mem _ h1)
      · have hb : (ka == k) = false := beq_eq_false_iff_ne.mpr hk
        rw [show dictSet ((ka, va) :: rest) k v = (ka, va) :: dictSet rest k v from by
              simp [dictSet, hb]] at h
        rcases List.mem_cons.mp h with h1 | h1
        · exact Or.inl (h1 ▸ List.mem_cons_self _ _)
        · rcases ih h1 with h2 | h2
          · exact Or.inl (List.mem_cons_of_mem _ h2)
          · exact Or.inr h2

theorem mem_dictDel {p : String × Value} {d : Record} {k : String}
    (h : p ∈ dictDel d k) : p ∈ d := List.mem_of_mem_filter h

theorem vlookup_mem {m : IdMap} {k v : Value} (h : vlookup m k = some v) : (k, v) ∈ m := by
  induction m with
  | nil => simp [vlookup] at h
  | cons a rest ih =>
      obtain ⟨ka, va⟩ := a
      by_cases hk : Value.beq ka k = true
      · rw [show vlookup ((ka, va) :: rest) k = some va from by simp [vlookup, hk]] at h
        obtain rfl : va = v := by injection h
        exact ((Value.beq_iff ka k).mp hk) ▸ List.mem_cons_self _ _
      · rw [show vlookup ((ka, va) :: rest) k = vlookup rest k from by
              simp only [Bool.not_eq_true] at hk
              simp [vlookup, hk]] at h
        exact List.mem_cons_of_mem _ (ih h)

theorem vlookup_nullFree {m : IdMap} {k v : Value} (hm : idMapNullFree m)
    (h : vlookup m k = some v) : v.isNull = false := hm (k, v) (vlookup_mem h)

theorem foldl_record_inv {α : Type} (step : Record → α → Record)
    (P : String × Value → Prop)
    (hstep : ∀ acc x, (∀ q ∈ acc, P q) → ∀ p ∈ step acc x, P p) :
    ∀ (l : List α) (acc : Record), (∀ q ∈ acc, P q) → ∀ p ∈ l.foldl step acc, P p := by
  intro l
  induction l with
  | nil => intro acc h p hp; exact h p hp
  | cons x xs ih => intro acc h p hp; exact ih _ (hstep acc x h) p hp

theorem dlookup_saleBase (sale : Record) (r u : Value) (k : String)
    (hr : k ≠ "register_id") (hu : k ≠ "user_id") (hs : k ≠ "status")
    (hd : k ≠ "sale_date") : dlookup (saleBase sale r u) k = none := by
  have h1 : ("register_id" == k) = false := beq_eq_false_iff_ne.mpr (Ne.symm hr)
  have h2 : ("user_id" == k) = false := beq_eq_false_iff_ne.mpr (Ne.symm hu)
  have h3 : ("status" == k) = false := beq_eq_false_iff_ne.mpr (Ne.symm hs)
  have h4 : ("sale_date" == k) = false := beq_eq_false_iff_ne.mpr (Ne.symm hd)
  simp [saleBase, dlookup, h1, h2, h3, h4]

theorem dlookup_saleWithCustomer_ne (cm : IdMap) (sale t : Record) (k : String)
    (h : k ≠ "customer_id") :
    dlookup (saleWithCustomer cm sale t) k = dlookup t k := by
  unfold saleWithCustomer
  by_cases ht : (dget sale "customer_id").truthy = true
  · simp only [ht, if_true]
    cases hv : vlookup cm (dget sale "customer_id") with
    | none => rfl
    | some nc => simp [dlookup_dictSet, h]
  · simp only [Bool.not_eq_true] at ht
    simp [ht]

theorem mem_saleWithCustomer {p : String × Value} {cm : IdMap} {sale t : Record}
    (h : p ∈ saleWithCustomer cm sale t) :
    p ∈ t ∨ (p.1 = "customer_id" ∧ vlookup cm (dget sale "customer_id") = some p.2) := by
  unfold saleWithCustomer at h
  by_cases ht : (dget sale "customer_id").truthy = true
  · simp only [ht, if_true] at h
    cases hv : vlookup cm (dget sale "customer_id") with
    | none => rw [hv] at h; exact Or.inl h
    | some nc =>
        rw [hv] at h
        rcases mem_dictSet h with h1 | h1
        · exact Or.inl h1
        · subst h1
          exact Or.inr ⟨rfl, rfl⟩
  · simp only [Bool.not_eq_true] at ht
    simp only [ht, Bool.false_eq_true, if_false] at h
    exact Or.inl h

theorem copyVerbatimFields_cons (sale : Record) (f : String) (fs : List String)
    (t : Record) :
    copyVerbatimFields sale (f :: fs) t =
      copyVerbatimFields sale fs
        (match dlookup sale f with
         | some v => if v.isNull then t else dictSet t f v
         | none => t) := rfl

theorem dlookup_copyVerbatimFields (sale : Record) (fields : List String)
    (t : Record) (k : String) (h : ∀ f ∈ fields, f ≠ k) :
    dlookup (copyVerbatimFields sale fields t) k = dlookup t k := by
  induction fields generalizing t with
  | nil => rfl
  | cons f fs ih =>
      have hf : f ≠ k := h f (List.mem_cons_self _ _)
      have hrest : ∀ g ∈ fs, g ≠ k := fun g hg => h g (List.mem_cons_of_mem _ hg)
      rw [copyVerbatimFields_cons]
      cases hv : dlookup sale f with
      | none => exact ih _ hrest
      | some v =>
          by_cases hn : v.isNull = true
          · simp only [hn, if_true]
            exact ih _ hrest
          · simp only [Bool.not_eq_true] at hn
            simp only [hn, Bool.false_eq_true, if_false]
            rw [ih _ hrest, dlookup_dictSet, if_neg (fun he => hf he.symm)]

theorem mem_copyVerbatimFields {p : String × Value} {sale : Record}
    {fields : List String} {t : Record}
    (h : p ∈ copyVerbatimFields sale fields t) :
    p ∈ t ∨ (p.1 ∈ fields ∧ dlookup sale p.1 = some p.2 ∧ p.2.isNull = false) := by
  induction fields generalizing t with
  | nil => exact Or.inl h
  | cons f fs ih =>
      rw [copyVerbatimFields_cons] at h
      cases hv : dlookup sale f with
      | none =>
          rw [hv] at h
          rcases ih h with h1 | h1
          · exact Or.inl h1
          · exact Or.inr ⟨List.mem_cons_of_mem _ h1.1, h1.2⟩
      | some v =>
          rw [hv] at h
          by_cases hn : v.isNull = true
          · simp only [hn, if_true] at h
            rcases ih h with h1 | h1
            · exact Or.inl h1
            · exact Or.inr ⟨List.mem_cons_of_mem _ h1.1, h1.2⟩
          · simp only [Bool.not_eq_true] at hn
            simp only [hn, Bool.false_eq_true, if_false] at h
            rcases ih h with h1 | h1
            · rcases mem_dictSet h1 with h2 | h2
              · exact Or.inl h2
              · right
                rw [h2]
                exact ⟨List.mem_cons_self _ _, hv, hn⟩
            · exact Or.inr ⟨List.mem_cons_of_mem _ h1.1, h1.2⟩

theorem dlookup_saleWithPayments_ne (tps : List Record) (t : Record) (k : String)
    (h : k ≠ "register_sale_payments") :
    dlookup (saleWithPayments tps t) k = dlookup t k := by
  unfold saleWithPayments
  by_cases he : tps.isEmpty = true
  · simp [he]
  · simp only [Bool.not_eq_true] at he
    simp [he, dlookup_dictSet, h]

theorem mem_saleWithPayments {p : String × Value} {tps : List Record} {t : Record}
    (h : p ∈ saleWithPayments tps t) :
    p ∈ t ∨ p = ("register_sale_payments", Value.vlist (tps.map Value.vdict)) := by
  unfold saleWithPayments at h
  by_cases he : tps.isEmpty = true
  · simp only [he, if_true] at h
    exact Or.inl h
  · simp only [Bool.not_eq_true] at he
    simp only [he, Bool.false_eq_true, if_false] at h
    exact mem_dictSet h

theorem transform_sale_shape (sale : Record) (pm cm rm um tm ptm : IdMap)
    (p : Record)
    (h : transform_sale_for_creation sale pm cm rm um tm ptm = Except.ok (some p)) :
    ∃ newReg newUser line_items payments,
      vlookup rm (dget sale "register_id") = some newReg ∧
      vlookup um (dget sale "user_id") = some newUser ∧
      pyIterRecords (dgetD sale "register_sale_products" (.vlist [])) = Except.ok line_items ∧
      (line_items.filterMap (transformLineItem pm tm)).isEmpty = false ∧
      pyIterRecords (dgetD sale "register_sale_payments" (.vlist [])) = Except.ok payments ∧
      p = copyVerbatimFields sale ["note", "short_code", "total_price", "total_tax"]
            (saleWithPayments (payments.filterMap (transformPayment ptm))
              (dictSet (saleWithCustomer cm sale (saleBase sale newReg newUser))
                "register_sale_products"
                (.vlist ((line_items.filterMap (transformLineItem pm tm)).map .vdict)))) := by
  unfold transform_sale_for_creation at h
  cases hr : vlookup rm (dget sale "register_id") with
  | none => rw [hr] at h; simp at h
  | some newReg =>
    rw [hr] at h
    cases hu : vlookup um (dget sale "user_id") with
    | none => rw [hu] at h; simp at h
    | some newUser =>
      rw [hu] at h
      simp only [] at h
      cases hit : pyIterRecords (dgetD sale "register_sale_products" (.vlist [])) with
      | error e => rw [hit] at h; simp at h
      | ok line_items =>
        rw [hit] at h
        simp only [] at h
        by_cases hemp : (line_items.filterMap (transformLineItem pm tm)).isEmpty = true
        · rw [if_pos hemp] at h; simp at h
        · rw [if_neg hemp] at h
          simp only [Bool.not_eq_true] at hemp
          cases hpay : pyIterRecords (dgetD sale "register_sale_payments" (.vlist [])) with
          | error e => rw [hpay] at h; simp at h
          | ok payments =>
            rw [hpay] at h
            simp only [Except.ok.injEq, Option.some.injEq] at h
            exact ⟨newReg, newUser, line_items, payments, rfl, rfl, rfl, hemp, rfl, h.symm⟩

/-- Claim C1: for every sale record and all identity maps, if the register or
user identifier of the sale has no entry in its map the transformer returns
no result, and whenever a payload is returned it carries the mapped
destination register and user identifiers. -/
theorem claim_C1 (sale : Record) (pm cm rm um tm ptm : IdMap) :
    ((vlookup rm (dget sale "register_id") = none ∨
      vlookup um (dget sale "user_id") = none) →
      transform_sale_for_creation sale pm cm rm um tm ptm = Except.ok none) ∧
    (∀ p : Record, transform_sale_for_creation sale pm cm rm um tm ptm = Except.ok (some p) →
      dlookup p "register_id" = vlookup rm (dget sale "register_id") ∧
      dlookup p "user_id" = vlookup um (dget sale "user_id")) := by
  constructor
  · intro h
    rcases h with h | h
    · unfold transform_sale_for_creation
      rw [h]
    · unfold transform_sale_for_creation
      cases hr : vlookup rm (dget sale "register_id") with
      | none => rfl
      | some newReg => rw [h]
  · intro p hp
    obtain ⟨newReg, newUser, line_items, payments, hr, hu, hit, hemp, hpay, hpeq⟩ :=
      transform_sale_shape sale pm cm rm um tm ptm p hp
    subst hpeq
    constructor
    · rw [dlookup_copyVerbatimFields _ _ _ _ (by decide)]
      rw [dlookup_saleWithPayments_ne _ _ _ (by decide)]
      rw [dlookup_dictSet, if_neg (by decide : ¬ ("register_id" = "register_sale_products"))]
      rw [dlookup_saleWithCustomer_ne _ _ _ _ (by decide)]
      rw [hr]
      rfl
    · rw [dlookup_copyVerbatimFields _ _ _ _ (by decide)]
      rw [dlookup_saleWithPayments_ne _ _ _ (by decide)]
      rw [dlookup_dictSet, if_neg (by decide : ¬ ("user_id" = "register_sale_products"))]
      rw [dlookup_saleWithCustomer_ne _ _ _ _ (by decide)]
      rw [hu]
      rfl

/-- Fixture for the C1 witness: a sale with mapped register, user and one
mapped line item. -/
def C1sale : Record :=
  [("register_id", .vstr "r"), ("user_id", .vstr "u"),
   ("register_sale_products", .vlist [.vdict [("product_id", .vstr "p")]])]

/-- Fixture for the C1 witness: the register map. -/
def C1rm : IdMap := [(.vstr "r", .vstr "R")]

/-- Fixture for the C1 witness: the user map. -/
def C1um : IdMap := [(.vstr "u", .vstr "U")]

/-- Fixture for the C1 witness: the product map. -/
def C1pm : IdMap := [(.vstr "p", .vstr "P")]

/-- Fixture for the C1 witness: the payload the transformer produces for
`C1sale`. -/
def C1payload : Record :=
  [("register_id", .vstr "R"), ("user_id", .vstr "U"), ("status", .vstr "CLOSED"),
   ("sale_date", .vnull),
   ("register_sale_products", .vlist [.vdict
     [("product_id", .vstr "P"), ("quantity", .vint 1), ("price", .vint 0),
      ("discount", .vint 0), ("loyalty_value", .vint 0)]])]

/-- Witness for C1: at a sale whose register is unmapped the transformer
returns no result, and at a fully mapped concrete sale the returned payload
carries the mapped register and user identifiers. -/
theorem claim_C1_witness :
    transform_sale_for_creation [("register_id", Value.vstr "unmapped-register")]
        [] [] C1rm [] [] [] = Except.ok none ∧
    (dlookup C1payload "register_id" = vlookup C1rm (dget C1sale "register_id") ∧
     dlookup C1payload "user_id" = vlookup C1um (dget C1sale "user_id")) :=
  ⟨(claim_C1 [("register_id", Value.vstr "unmapped-register")] [] [] C1rm [] [] []).1
      (Or.inl rfl),
   (claim_C1 C1sale C1pm [] C1rm C1um [] []).2 C1payload rfl⟩

/-- Claim C2: line items are filtered independently — an item is dropped
exactly when its product has no mapping, a kept item carries the substituted
destination product identifier with tax substituted when present and mapped
and otherwise omitted, the accepted payload's line items are exactly the
filtered image of the source items, and a sale with zero surviving line
items is rejected even when registers, users and customers are mapped. -/
theorem claim_C2 (pm cm rm um tm ptm : IdMap) (item sale : Record) :
    (transformLineItem pm tm item = none ↔
      vlookup pm (dget item "product_id") = none) ∧
    (∀ out : Record, transformLineItem pm tm item = some out →
      dlookup out "product_id" = vlookup pm (dget item "product_id") ∧
      dlookup out "tax_id" =
        (if (dget item "tax_id").truthy then vlookup tm (dget item "tax_id") else none)) ∧
    (∀ (line_items : List Record) (p : Record),
      pyIterRecords (dgetD sale "register_sale_products" (.vlist [])) = Except.ok line_items →
      transform_sale_for_creation sale pm cm rm um tm ptm = Except.ok (some p) →
      dlookup p "register_sale_products" =
        some (.vlist ((line_items.filterMap (transformLineItem pm tm)).map .vdict))) ∧
    (∀ line_items : List Record,
      pyIterRecords (dgetD sale "register_sale_products" (.vlist [])) = Except.ok line_items →
      line_items.filterMap (transformLineItem pm tm) = [] →
      transform_sale_for_creation sale pm cm rm um tm ptm = Except.ok none) := by
  refine ⟨?_, ?_, ?_, ?_⟩
  · unfold transformLineItem
    cases hv : vlookup pm (dget item "product_id") with
    | none => simp
    | some newPid =>
        simp only []
        constructor
        · intro h
          by_cases htr : (dget item "tax_id").truthy = true
          · rw [if_pos htr] at h
            cases htax : vlookup tm (dget item "tax_id") with
            | none => rw [htax] at h; exact absurd h (by simp)
            | some nt => rw [htax] at h; exact absurd h (by simp)
          · rw [if_neg htr] at h
            exact absurd h (by simp)
        · intro h
          exact absurd h (by simp)
  · intro out h
    unfold transformLineItem at h
    cases hv : vlookup pm (dget item "product_id") with
    | none => rw [hv] at h; exact absurd h (by simp)
    | some newPid =>
        rw [hv] at h
        simp only [] at h
        by_cases htr : (dget item "tax_id").truthy = true
        · rw [if_pos htr] at h
          cases htax : vlookup tm (dget item "tax_id") with
          | none =>
              rw [htax] at h
              obtain rfl : _ = out := by injection h
              rw [if_pos htr]
              exact ⟨rfl, rfl⟩
          | some nt =>
              rw [htax] at h
              obtain rfl : _ = out := by injection h
              rw [if_pos htr]
              exact ⟨rfl, rfl⟩
        · rw [if_neg htr] at h
          obtain rfl : _ = out := by injection h
          rw [if_neg htr]
          exact ⟨rfl, rfl⟩
  · intro line_items p hit hp
    obtain ⟨newReg, newUser, line_items2, payments, hr, hu, hit2, hemp, hpay, hpeq⟩ :=
      transform_sale_shape sale pm cm rm um tm ptm p hp
    obtain rfl : line_items2 = line_items := by
      rw [hit] at hit2
      injection hit2 with h2
      exact h2.symm
    subst hpeq
    rw [dlookup_copyVerbatimFields _ _ _ _ (by decide)]
    rw [dlookup_saleWithPayments_ne _ _ _ (by decide)]
    rw [dlookup_dictSet, if_pos rfl]
  · intro line_items hit hempty
    unfold transform_sale_for_creation
    cases hr : vlookup rm (dget sale "register_id") with
    | none => rfl
    | some newReg =>
        cases hu : vlookup um (dget sale "user_id") with
        | none => rfl
        | some newUser =>
            rw [hit]
            simp only [hempty, List.isEmpty_nil, if_true]

/-- Fixture for the C2 witness: the product map of the spec example. -/
def C2pm : IdMap :=
  [(.vstr "prod-src-1", .vstr "prod-dst-1"), (.vstr "prod-src-2", .vstr "prod-dst-2")]

/-- Fixture for the C2 witness: a line item with a mapped product and a
mapped tax reference. -/
def C2item : Record := [("product_id", .vstr "prod-src-1"), ("tax_id", .vstr "tax-src-1")]

/-- Fixture for the C2 witness: the tax map. -/
def C2tm : IdMap := [(.vstr "tax-src-1", .vstr "tax-dst-1")]

/-- Fixture for the C2 witness: the transformed line item for `C2item`. -/
def C2out : Record :=
  [("product_id", .vstr "prod-dst-1"), ("quantity", .vint 1), ("price", .vint 0),
   ("discount", .vint 0), ("loyalty_value", .vint 0), ("tax_id", .vstr "tax-dst-1")]

/-- Fixture for the C2 witness: a sale whose only line item has an unmapped
product, with register, user and customer all mapped. -/
def C2sale : Record :=
  [("register_id", .vstr "r"), ("user_id", .vstr "u"), ("customer_id", .vstr "c"),
   ("register_sale_products", .vlist [.vdict [("product_id", .vstr "unmapped-product")]])]

/-- Witness for C2: a line item with an unmapped product is dropped, the
concrete kept item carries the mapped product and tax identifiers, and the
concrete sale with zero surviving items is rejected although register, user
and customer are mapped. -/
theorem claim_C2_witness :
    (transformLineItem C2pm C2tm [("product_id", .vstr "unmapped-product")] = none) ∧
    (dlookup C2out "product_id" = vlookup C2pm (dget C2item "product_id") ∧
     dlookup C2out "tax_id" =
       (if (dget C2item "tax_id").truthy then vlookup C2tm (dget C2item "tax_id") else none)) ∧
    transform_sale_for_creation C2sale C2pm [(.vstr "c", .vstr "C")]
      [(.vstr "r", .vstr "R")] [(.vstr "u", .vstr "U")] C2tm [] = Except.ok none :=
  ⟨(claim_C2 C2pm [] [] [] C2tm [] [("product_id", .vstr "unmapped-product")] []).1.mpr rfl,
   (claim_C2 C2pm [] [] [] C2tm [] C2item []).2.1 C2out rfl,
   (claim_C2 C2pm [(.vstr "c", .vstr "C")] [(.vstr "r", .vstr "R")] [(.vstr "u", .vstr "U")]
      C2tm [] C2item C2sale).2.2.2
     [[("product_id", .vstr "unmapped-product")]] rfl rfl⟩

/-- Fixture for C4: a sale with no `sale_date`, mapped register and user,
and one mapped line item. -/
def C4sale : Record :=
  [("register_id", .vstr "r"), ("user_id", .vstr "u"),
   ("register_sale_products", .vlist [.vdict [("product_id", .vstr "p")]])]

/-- Fixture for C4: the register map. -/
def C4rm : IdMap := [(.vstr "r", .vstr "R")]

/-- Fixture for C4: the user map. -/
def C4um : IdMap := [(.vstr "u", .vstr "U")]

/-- Fixture for C4: the product map. -/
def C4pm : IdMap := [(.vstr "p", .vstr "P")]

/-- Fixture for C4: the payload produced for `C4sale`, carrying a null
`sale_date`. -/
def C4payload : Record :=
  [("register_id", .vstr "R"), ("user_id", .vstr "U"), ("status", .vstr "CLOSED"),
   ("sale_date", .vnull),
   ("register_sale_products", .vlist [.vdict
     [("product_id", .vstr "P"), ("quantity", .vint 1), ("price", .vint 0),
      ("discount", .vint 0), ("loyalty_value", .vint 0)]])]

/-- Counterexample to C4 as stated: a sale with an absent sale date is
accepted and its payload carries the field `sale_date` with a null value —
the null sale date is emitted, not omitted. -/
theorem claim_C4_counterexample :
    transform_sale_for_creation C4sale C4pm [] C4rm C4um [] [] =
      Except.ok (some C4payload) ∧
    dlookup C4payload "sale_date" = some Value.vnull := ⟨rfl, rfl⟩

/-- Claim C4 (amended): for every accepted sale, with identity maps whose
destination values are non-null, the only field of the payload that can hold
a null value is `sale_date` — the descriptive fields note, short_code,
total_price and total_tax are omitted when null or absent — while
`sale_date` is always emitted and carries the source sale date, null when
that date is null or absent. -/
theorem claim_C4 (sale : Record) (pm cm rm um tm ptm : IdMap) (p : Record)
    (hrm : idMapNullFree rm) (hum : idMapNullFree um) (hcm : idMapNullFree cm)
    (hp : transform_sale_for_creation sale pm cm rm um tm ptm = Except.ok (some p)) :
    (∀ kv ∈ p, kv.2.isNull = true → kv.1 = "sale_date") ∧
    dlookup p "sale_date" = some (dget sale "sale_date") := by
  obtain ⟨newReg, newUser, line_items, payments, hr, hu, hit, hemp, hpay, hpeq⟩ :=
    transform_sale_shape sale pm cm rm um tm ptm p hp
  subst hpeq
  constructor
  · intro kv hkv hnull
    rcases mem_copyVerbatimFields hkv with h1 | h1
    · rcases mem_saleWithPayments h1 with h2 | h2
      · rcases mem_dictSet h2 with h3 | h3
        · rcases mem_saleWithCustomer h3 with h4 | h4
          · simp only [saleBase, List.mem_cons, List.not_mem_nil, or_false] at h4
            rcases h4 with h5 | h5 | h5 | h5
            · rw [h5] at hnull
              rw [vlookup_nullFree hrm hr] at hnull
              exact absurd hnull (by simp)
            · rw [h5] at hnull
              rw [vlookup_nullFree hum hu] at hnull
              exact absurd hnull (by simp)
            · rw [h5] at hnull
              exact absurd hnull (by simp [Value.isNull])
            · rw [h5]
          · rw [vlookup_nullFree hcm h4.2] at hnull
            exact absurd hnull (by simp)
        · rw [h3] at hnull
          exact absurd hnull (by simp [Value.isNull])
      · rw [h2] at hnull
        exact absurd hnull (by simp [Value.isNull])
    · rw [h1.2.2] at hnull
      exact absurd hnull (by simp)
  · rw [dlookup_copyVerbatimFields _ _ _ _ (by decide)]
    rw [dlookup_saleWithPayments_ne _ _ _ (by decide)]
    rw [dlookup_dictSet, if_neg (by decide : ¬ ("sale_date" = "register_sale_products"))]
    rw [dlookup_saleWithCustomer_ne _ _ _ _ (by decide)]
    rfl

/-- Witness for C4 (amended) at the concrete fixtures: the payload's only
null field is `sale_date`, which carries the absent source date as null. -/
theorem claim_C4_witness :
    (∀ kv ∈ C4payload, kv.2.isNull = true → kv.1 = "sale_date") ∧
    dlookup C4payload "sale_date" = some (dget C4sale "sale_date") :=
  claim_C4 C4sale C4pm [] C4rm C4um [] [] C4payload (by decide) (by decide) (by decide) rfl

/-- Claim C10: a kept line item missing quantity, price, discount or
loyalty_value is emitted with the fabricated defaults 1, 0, 0 and 0, and a
kept payment missing amount is emitted with amount 0 — values that were
never present in the source record. -/
theorem claim_C10 (pm tm ptm : IdMap) (item payment : Record) :
    (∀ out : Record, transformLineItem pm tm item = some out →
      (dlookup item "quantity" = none → dlookup out "quantity" = some (.vint 1)) ∧
      (dlookup item "price" = none → dlookup out "price" = some (.vint 0)) ∧
      (dlookup item "discount" = none → dlookup out "discount" = some (.vint 0)) ∧
      (dlookup item "loyalty_value" = none → dlookup out "loyalty_value" = some (.vint 0))) ∧
    (∀ pout : Record, transformPayment ptm payment = some pout →
      dlookup payment "amount" = none → dlookup pout "amount" = some (.vint 0)) := by
  constructor
  · intro out h
    unfold transformLineItem at h
    cases hv : vlookup pm (dget item "product_id") with
    | none => rw [hv] at h; exact absurd h (by simp)
    | some newPid =>
        rw [hv] at h
        simp only [] at h
        by_cases htr : (dget item "tax_id").truthy = true
        · rw [if_pos htr] at h
          cases htax : vlookup tm (dget item "tax_id") with
          | none =>
              rw [htax] at h
              obtain rfl : _ = out := by injection h
              refine ⟨?_, ?_, ?_, ?_⟩ <;>
                · intro hq
                  simp [dlookup, dgetD, hq]
          | some nt =>
              rw [htax] at h
              obtain rfl : _ = out := by injection h
              refine ⟨?_, ?_, ?_, ?_⟩ <;>
                · intro hq
                  simp [dlookup, dictSet, dgetD, hq]
        · rw [if_neg htr] at h
          obtain rfl : _ = out := by injection h
          refine ⟨?_, ?_, ?_, ?_⟩ <;>
            · intro hq
              simp [dlookup, dgetD, hq]
  · intro pout h hq
    unfold transformPayment at h
    cases hv : vlookup ptm (dget payment "payment_type_id") with
    | none => rw [hv] at h; exact absurd h (by simp)
    | some newPt =>
        rw [hv] at h
        obtain rfl : _ = pout := by injection h
        simp [dlookup, dgetD, hq]

/-- Witness for C10: a concrete kept line item and payment whose source
records carry no numeric fields come out with the fabricated defaults. -/
theorem claim_C10_witness :
    (dlookup [("product_id", Value.vstr "P"), ("quantity", Value.vint 1),
              ("price", Value.vint 0), ("discount", Value.vint 0),
              ("loyalty_value", Value.vint 0)] "quantity" = some (Value.vint 1)) ∧
    (dlookup [("payment_type_id", Value.vstr "PT"), ("amount", Value.vint 0)]
      "amount" = some (Value.vint 0)) :=
  ⟨((claim_C10 [(.vstr "p", .vstr "P")] [] [(.vstr "pt", .vstr "PT")]
      [("product_id", .vstr "p")] [("payment_type_id", .vstr "pt")]).1
      [("product_id", Value.vstr "P"), ("quantity", Value.vint 1),
       ("price", Value.vint 0), ("discount", Value.vint 0),
       ("loyalty_value", Value.vint 0)] rfl).1 rfl,
   (claim_C10 [(.vstr "p", .vstr "P")] [] [(.vstr "pt", .vstr "PT")]
      [("product_id", .vstr "p")] [("payment_type_id", .vstr "pt")]).2
      [("payment_type_id", Value.vstr "PT"), ("amount", Value.vint 0)] rfl rfl⟩

theorem mem_customerFieldStep {p : String × Value} {acc : Record} {kv : String × Value}
    (h : p ∈ customerFieldStep acc kv) :
    p ∈ acc ∨ (p = kv ∧ CUSTOMER_STRIP_FIELDS.contains kv.1 = false ∧
               kv.2.isNull = false ∧ (kv.1 == "customer_group" && kv.2.isDict) = false) := by
  unfold customerFieldStep at h
  by_cases h1 : CUSTOMER_STRIP_FIELDS.contains kv.1 = true
  · rw [if_pos h1] at h
    exact Or.inl h
  · rw [if_neg h1] at h
    simp only [Bool.not_eq_true] at h1
    by_cases h2 : kv.2.isNull = true
    · rw [if_pos h2] at h
      exact Or.inl h
    · rw [if_neg h2] at h
      simp only [Bool.not_eq_true] at h2
      by_cases h3 : (kv.1 == "customer_group" && kv.2.isDict) = true
      · rw [if_pos h3] at h
        exact Or.inl h
      · rw [if_neg h3] at h
        simp only [Bool.not_eq_true] at h3
        rcases mem_dictSet h with h4 | h4
        · exact Or.inl h4
        · exact Or.inr ⟨h4, h1, h2, h3⟩

/-- Counterexample to C8 as stated: a string-valued `customer_group` is
propagated unchanged, so the group reference is not dropped regardless of
shape. -/
theorem claim_C8_counterexample :
    dlookup (transform_customer_for_creation [("customer_group", Value.vstr "vip")])
      "customer_group" = some (Value.vstr "vip") := rfl

/-- Claim C8 (amended): the customer transformer drops `customer_group`
exactly when the stored value is a nested mapping (dict) or null; in the
output any surviving `customer_group` value is neither a dict nor null (a
non-dict, non-null value is propagated unchanged). -/
theorem claim_C8 (customer : Record) :
    ∀ kv ∈ transform_customer_for_creation customer,
      kv.1 = "customer_group" → kv.2.isDict = false ∧ kv.2.isNull = false := by
  intro kv hkv
  unfold transform_customer_for_creation at hkv
  refine foldl_record_inv customerFieldStep
    (fun p => p.1 = "customer_group" → p.2.isDict = false ∧ p.2.isNull = false)
    ?_ customer [] (by intro q hq; exact absurd hq (List.not_mem_nil q)) kv hkv
  intro acc x hacc p hp
  rcases mem_customerFieldStep hp with h1 | ⟨rfl, hstrip, hnull, hgrp⟩
  · exact hacc p h1
  · intro hkey
    refine ⟨?_, hnull⟩
    rw [hkey] at hgrp
    simpa using hgrp

/-- Witness for C8 (amended): the concrete surviving string-valued
`customer_group` is neither a dict nor null. -/
theorem claim_C8_witness :
    (Value.vstr "vip").isDict = false ∧ (Value.vstr "vip").isNull = false :=
  claim_C8 [("customer_group", Value.vstr "vip")]
    ("customer_group", Value.vstr "vip") (by decide) rfl

/-- Claim C5: every logger operation — log_success, log_failure,
set_inventory_counts, complete — mutates the in-memory document and
immediately mirrors it to the persisted file, so after any single call the
persisted document equals the in-memory one. -/
theorem claim_C5 (s : LoggerState) (ts : String) (et : EntityType)
    (sid nid : Option String) (code : Int) (ident : Option String)
    (extra : Option Record) (fsid : Option String) (fcode : Option Int)
    (msg etype : String) (rp : Option Record) (rb : Option Value)
    (fident : Option String) (fextra : Option Record)
    (upd fld : Nat) (cts cstatus : String) :
    ((CloneLogger.log_success s ts et sid nid code ident extra).file =
      (CloneLogger.log_success s ts et sid nid code ident extra).data) ∧
    ((CloneLogger.log_failure s ts et fsid fcode msg etype rp rb fident fextra).file =
      (CloneLogger.log_failure s ts et fsid fcode msg etype rp rb fident fextra).data) ∧
    ((CloneLogger.set_inventory_counts s upd fld).file =
      (CloneLogger.set_inventory_counts s upd fld).data) ∧
    ((CloneLogger.complete s cts cstatus).file =
      (CloneLogger.complete s cts cstatus).data) :=
  ⟨rfl, rfl, rfl, rfl⟩

/-- Claim C9: `classify_error` implements the six-way error taxonomy of the
spec in priority order — permission for 401/403, then server for 500 and
above, then duplicate by message, then not-found by message or status 404,
then validation for 400/422, and unknown in every remaining case including a
missing status code. -/
theorem claim_C9 (status_code : Option Int) (error_message : String) (rb : Option Value) :
    classify_error status_code error_message rb =
      claimErrorTaxonomy status_code error_message := by
  cases status_code with
  | none => rfl
  | some code =>
    unfold classify_error claimErrorTaxonomy
    by_cases h403 : code = 403
    · subst h403; rfl
    · by_cases h401 : code = 401
      · subst h401; rfl
      · have b403 : (code == (403 : Int)) = false := beq_eq_false_iff_ne.mpr h403
        have b401 : (code == (401 : Int)) = false := beq_eq_false_iff_ne.mpr h401
        by_cases h500 : code ≥ 500
        · simp [b403, b401, h500]
        · by_cases h400 : code = 400
          · subst h400
            by_cases hdup : strContains (lowerMessage error_message) "duplicate" = true <;>
            by_cases hae : strContains (lowerMessage error_message) "already exists" = true <;>
            by_cases hnf : strContains (lowerMessage error_message) "not found" = true <;>
            simp [hdup, hae, hnf]
          · by_cases h422 : code = 422
            · subst h422
              by_cases hdup : strContains (lowerMessage error_message) "duplicate" = true <;>
              by_cases hae : strContains (lowerMessage error_message) "already exists" = true <;>
              by_cases hnf : strContains (lowerMessage error_message) "not found" = true <;>
              simp [hdup, hae, hnf]
            · by_cases h404 : code = 404
              · subst h404
                by_cases hdup : strContains (lowerMessage error_message) "duplicate" = true <;>
                by_cases hae : strContains (lowerMessage error_message) "already exists" = true <;>
                by_cases hnf : strContains (lowerMessage error_message) "not found" = true <;>
                simp [hdup, hae, hnf]
              · have b400 : (code == (400 : Int)) = false := beq_eq_false_iff_ne.mpr h400
                have b422 : (code == (422 : Int)) = false := beq_eq_false_iff_ne.mpr h422
                have b404 : (code == (404 : Int)) = false := beq_eq_false_iff_ne.mpr h404
                by_cases hdup : strContains (lowerMessage error_message) "duplicate" = true <;>
                by_cases hae : strContains (lowerMessage error_message) "already exists" = true <;>
                by_cases hnf : strContains (lowerMessage error_message) "not found" = true <;>
                simp [b403, b401, h500, b400, b422, b404, hdup, hae, hnf]

theorem foldl_mem_inv {α β : Type} (l : List α) (step : List β → α → List β)
    (P : β → Prop)
    (hstep : ∀ acc x, x ∈ l → (∀ q ∈ acc, P q) → ∀ p ∈ step acc x, P p) :
    ∀ acc, (∀ q ∈ acc, P q) → ∀ p ∈ l.foldl step acc, P p := by
  induction l with
  | nil => intro acc h p hp; exact h p hp
  | cons x xs ih =>
      intro acc h p hp
      exact ih (fun acc' y hy => hstep acc' y (List.mem_cons_of_mem _ hy)) _
        (hstep acc x (List.mem_cons_self _ _) h) p hp

theorem mem_vupdate {p : Value × Value} {m : IdMap} {k v : Value}
    (h : p ∈ vupdate m k v) : p ∈ m ∨ p = (k, v) := by
  induction m with
  | nil =>
      simp [vupdate] at h
      exact Or.inr h
  | cons a rest ih =>
      obtain ⟨ka, va⟩ := a
      by_cases hk : Value.beq ka k = true
      · rw [show vupdate ((ka, va) :: rest) k v = (ka, v) :: rest from by
              simp [vupdate, hk]] at h
        rcases List.mem_cons.mp h with h1 | h1
        · exact Or.inr (by rw [h1, (Value.beq_iff ka k).mp hk])
        · exact Or.inl (List.mem_cons_of_mem _ h1)
      · rw [show vupdate ((ka, va) :: rest) k v = (ka, va) :: vupdate rest k v from by
              simp only [Bool.not_eq_true] at hk
              simp [vupdate, hk]] at h
        rcases List.mem_cons.mp h with h1 | h1
        · exact Or.inl (h1 ▸ List.mem_cons_self _ _)
        · rcases ih h1 with h2 | h2
          · exact Or.inl (List.mem_cons_of_mem _ h2)
          · exact Or.inr h2

theorem mem_nameIndex {dst : List Record} {p : Value × Value}
    (h : p ∈ nameIndex dst) :
    p.1.truthy = true ∧ ∃ item ∈ dst, dget item "name" = p.1 ∧ dget item "id" = p.2 := by
  unfold nameIndex at h
  refine foldl_mem_inv dst _
    (fun q => q.1.truthy = true ∧ ∃ item ∈ dst, dget item "name" = q.1 ∧ dget item "id" = q.2)
    ?_ [] (by intro q hq; exact absurd hq (List.not_mem_nil q)) p h
  intro acc item hitem hacc q hq
  by_cases ht : (dget item "name").truthy = true
  · rw [if_pos ht] at hq
    rcases mem_vupdate hq with h1 | h1
    · exact hacc q h1
    · subst h1
      exact ⟨ht, item, hitem, rfl, rfl⟩
  · rw [if_neg ht] at hq
    exact hacc q hq

theorem foldlM_error_of_mem {α β : Type} (l : List α)
    (f : β → α → Except String β) (x : α) (hx : x ∈ l)
    (herr : ∀ acc, ∃ e, f acc x = Except.error e) :
    ∀ acc, ∃ e, l.foldlM f acc = Except.error e := by
  induction l with
  | nil => exact absurd hx (List.not_mem_nil x)
  | cons a as ih =>
      intro acc
      rcases List.mem_cons.mp hx with rfl | hx2
      · obtain ⟨e, he⟩ := herr acc
        refine ⟨e, ?_⟩
        rw [List.foldlM_cons, he]
        rfl
      · cases hfa : f acc a with
        | error e =>
            refine ⟨e, ?_⟩
            rw [List.foldlM_cons, hfa]
            rfl
        | ok acc' =>
            obtain ⟨e, he⟩ := ih hx2 acc'
            refine ⟨e, ?_⟩
            rw [List.foldlM_cons, hfa]
            simpa using he

/-- Counterexample to C7 as stated: `map_outlets_by_name` is not total — a
source outlet carrying an `id` but no `name` field makes it raise a KeyError
instead of being silently skipped. -/
theorem claim_C7_counterexample :
    map_outlets_by_name [[("id", Value.vstr "a")]] [] =
      Except.error "KeyError: name" := rfl

/-- Claim C7 (amended): `map_by_name` is total and never raises — items with
a missing or falsy `id` or `name` are silently skipped, and every entry of
the resulting map stems from a source item whose truthy name has an exact
match in the destination name index, itself built from destination items by
exact name.  `map_outlets_by_name`, by contrast, uses direct subscripting and
raises a KeyError whenever any source or destination outlet lacks an `id` or
`name` field. -/
theorem claim_C7 (source_items dest_items source_outlets dest_outlets : List Record) :
    (∀ kv ∈ map_by_name source_items dest_items,
      kv.1.truthy = true ∧
      ∃ item ∈ source_items, dget item "id" = kv.1 ∧ (dget item "name").truthy = true ∧
        vlookup (nameIndex dest_items) (dget item "name") = some kv.2) ∧
    (∀ n d : Value, vlookup (nameIndex dest_items) n = some d →
      n.truthy = true ∧ ∃ item ∈ dest_items, dget item "name" = n ∧ dget item "id" = d) ∧
    (∀ (dbn m : IdMap) (item : Record),
      (dget item "id").truthy = false ∨ (dget item "name").truthy = false →
      mapByNameStep dbn m item = m) ∧
    (∀ o ∈ source_outlets ++ dest_outlets,
      (dlookup o "id" = none ∨ dlookup o "name" = none) →
      ∃ e, map_outlets_by_name source_outlets dest_outlets = Except.error e) := by
  refine ⟨?_, ?_, ?_, ?_⟩
  · intro kv hkv
    unfold map_by_name at hkv
    refine foldl_mem_inv source_items _
      (fun q => q.1.truthy = true ∧
        ∃ item ∈ source_items, dget item "id" = q.1 ∧ (dget item "name").truthy = true ∧
          vlookup (nameIndex dest_items) (dget item "name") = some q.2)
      ?_ [] (by intro q hq; exact absurd hq (List.not_mem_nil q)) kv hkv
    intro acc item hitem hacc q hq
    unfold mapByNameStep at hq
    by_cases hc : ((dget item "id").truthy && (dget item "name").truthy) = true
    · rw [if_pos hc] at hq
      obtain ⟨hid, hname⟩ := Bool.and_eq_true_iff.mp hc
      cases hv : vlookup (nameIndex dest_items) (dget item "name") with
      | none => rw [hv] at hq; exact hacc q hq
      | some d =>
          rw [hv] at hq
          rcases mem_vupdate hq with h1 | h1
          · exact hacc q h1
          · subst h1
            exact ⟨hid, item, hitem, rfl, hname, hv⟩
    · rw [if_neg hc] at hq
      exact hacc q hq
  · intro n d hv
    have hmem := vlookup_mem hv
    have := mem_nameIndex hmem
    exact ⟨this.1, this.2⟩
  · intro dbn m item h
    unfold mapByNameStep
    have hc : ((dget item "id").truthy && (dget item "name").truthy) = false := by
      rcases h with h | h <;> simp [h]
    rw [if_neg (by simp [hc])]
  · intro o ho hmiss
    rcases List.mem_append.mp ho with hsrc | hdst
    · unfold map_outlets_by_name
      cases hidx : outletNameIndex dest_outlets with
      | error e => exact ⟨e, rfl⟩
      | ok dest_by_name =>
          have hstep : ∀ acc, ∃ e, outletMapStep dest_by_name acc o = Except.error e := by
            intro acc
            unfold outletMapStep
            cases hid : dlookup o "id" with
            | none => exact ⟨"KeyError: id", rfl⟩
            | some i =>
                cases hname : dlookup o "name" with
                | none => exact ⟨"KeyError: name", rfl⟩
                | some nm =>
                    rcases hmiss with h | h
                    · rw [h] at hid; exact absurd hid (by simp)
                    · rw [h] at hname; exact absurd hname (by simp)
          obtain ⟨e, he⟩ := foldlM_error_of_mem source_outlets
            (outletMapStep dest_by_name) o hsrc hstep []
          exact ⟨e, by simpa using he⟩
    · have hstep : ∀ acc, ∃ e, outletIndexStep acc o = Except.error e := by
        intro acc
        unfold outletIndexStep
        cases hname : dlookup o "name" with
        | none => exact ⟨"KeyError: name", rfl⟩
        | some nm =>
            cases hid : dlookup o "id" with
            | none => exact ⟨"KeyError: id", rfl⟩
            | some i =>
                rcases hmiss with h | h
                · rw [h] at hid; exact absurd hid (by simp)
                · rw [h] at hname; exact absurd hname (by simp)
      obtain ⟨e, he⟩ := foldlM_error_of_mem dest_outlets outletIndexStep o hdst hstep []
      refine ⟨e, ?_⟩
      unfold map_outlets_by_name
      rw [show outletNameIndex dest_outlets = Except.error e from he]
      rfl

/-- Fixture for the C7 witness: source items including one missing an id and
one missing a name. -/
def C7src : List Record :=
  [[("id", .vstr "src-1"), ("name", .vstr "Register 1")],
   [("name", .vstr "No ID")], [("id", .vstr "no-name")]]

/-- Fixture for the C7 witness: the destination items. -/
def C7dst : List Record := [[("id", .vstr "dst-1"), ("name", .vstr "Register 1")]]

/-- Witness for C7 (amended): the single concrete entry of the name map
stems from a source item by exact truthy name match; the skip rule fires on
an item missing its name; and the outlet variant errors on a concrete outlet
list with a missing name. -/
theorem claim_C7_witness :
    ((Value.vstr "src-1").truthy = true ∧
      ∃ item ∈ C7src, dget item "id" = Value.vstr "src-1" ∧
        (dget item "name").truthy = true ∧
        vlookup (nameIndex C7dst) (dget item "name") = some (Value.vstr "dst-1")) ∧
    (mapByNameStep [] [] [("id", .vstr "no-name")] = []) ∧
    (∃ e, map_outlets_by_name [[("id", Value.vstr "a")]] [] = Except.error e) :=
  ⟨(claim_C7 C7src C7dst [] []).1 (Value.vstr "src-1", Value.vstr "dst-1") (by decide),
   (claim_C7 C7src C7dst [] []).2.2.1 [] [] [("id", .vstr "no-name")] (Or.inr rfl),
   (claim_C7 C7src C7dst [[("id", Value.vstr "a")]] []).2.2.2
     [("id", Value.vstr "a")] (by decide) (Or.inr rfl)⟩

theorem Value.eq_vnull_of_isNull {v : Value} (h : v.isNull = true) : v = .vnull := by
  cases v <;> simp [Value.isNull] at h ⊢

theorem mem_productFieldStep {p : String × Value} {bm sm : IdMap} {acc : Record}
    {k : String} {v : Value} (h : p ∈ productFieldStep bm sm acc (k, v)) :
    p ∈ acc ∨
      (PRODUCT_ALLOWED_FIELDS.contains k = true ∧ v.isNull = false ∧ p.1 = k ∧
        (p.2 = v ∨
         (∃ w, vlookup bm v = some w ∧ p.2 = w) ∨
         (∃ w, vlookup sm v = some w ∧ p.2 = w) ∨
         (∃ l : List Record, p.2 = Value.vlist (l.map Value.vdict)))) := by
  unfold productFieldStep at h
  simp only [] at h
  by_cases h1 : PRODUCT_ALLOWED_FIELDS.contains k = true
  · rw [if_neg (by rw [h1]; decide)] at h
    by_cases h2 : v.isNull = true
    · rw [if_pos h2] at h
      exact Or.inl h
    · simp only [Bool.not_eq_true] at h2
      rw [if_neg (by rw [h2]; decide)] at h
      by_cases h3 : (k == "brand_id") = true
      · rw [if_pos h3] at h
        cases hbv : vlookup bm v with
        | some mapped =>
            rw [hbv] at h
            rcases mem_dictSet h with hm | hm
            · exact Or.inl hm
            · subst hm
              exact Or.inr ⟨h1, h2, rfl, Or.inr (Or.inl ⟨mapped, rfl, rfl⟩)⟩
        | none => rw [hbv] at h; exact Or.inl h
      · rw [if_neg h3] at h
        by_cases h4 : (k == "supplier_id") = true
        · rw [if_pos h4] at h
          cases hsv : vlookup sm v with
          | some mapped =>
              rw [hsv] at h
              rcases mem_dictSet h with hm | hm
              · exact Or.inl hm
              · subst hm
                exact Or.inr ⟨h1, h2, rfl, Or.inr (Or.inr (Or.inl ⟨mapped, rfl, rfl⟩))⟩
          | none => rw [hsv] at h; exact Or.inl h
        · rw [if_neg h4] at h
          by_cases h5 : (k == "product_codes") = true
          · rw [if_pos h5] at h
            cases v with
            | vlist codes =>
                replace h : p ∈ (if (codes.filterMap cleanProductCode).isEmpty = true then acc
                    else dictSet acc k
                      (Value.vlist ((codes.filterMap cleanProductCode).map Value.vdict))) := h
                by_cases hemp : (codes.filterMap cleanProductCode).isEmpty = true
                · rw [if_pos hemp] at h
                  exact Or.inl h
                · rw [if_neg hemp] at h
                  rcases mem_dictSet h with hm | hm
                  · exact Or.inl hm
                  · subst hm
                    exact Or.inr ⟨h1, h2, rfl,
                      Or.inr (Or.inr (Or.inr ⟨codes.filterMap cleanProductCode, rfl⟩))⟩
            | vnull =>
                replace h : p ∈ dictSet acc k Value.vnull := h
                rcases mem_dictSet h with hm | hm
                · exact Or.inl hm
                · subst hm
                  exact Or.inr ⟨h1, h2, rfl, Or.inl rfl⟩
            | vbool b =>
                replace h : p ∈ dictSet acc k (Value.vbool b) := h
                rcases mem_dictSet h with hm | hm
                · exact Or.inl hm
                · subst hm
                  exact Or.inr ⟨h1, h2, rfl, Or.inl rfl⟩
            | vint n =>
                replace h : p ∈ dictSet acc k (Value.vint n) := h
                rcases mem_dictSet h with hm | hm
                · exact Or.inl hm
                · subst hm
                  exact Or.inr ⟨h1, h2, rfl, Or.inl rfl⟩
            | vstr s =>
                replace h : p ∈ dictSet acc k (Value.vstr s) := h
                rcases mem_dictSet h with hm | hm
                · exact Or.inl hm
                · subst hm
                  exact Or.inr ⟨h1, h2, rfl, Or.inl rfl⟩
            | vdict d =>
                replace h : p ∈ dictSet acc k (Value.vdict d) := h
                rcases mem_dictSet h with hm | hm
                · exact Or.inl hm
                · subst hm
                  exact Or.inr ⟨h1, h2, rfl, Or.inl rfl⟩
          · rw [if_neg h5] at h
            by_cases h6 : (k == "product_suppliers") = true
            · rw [if_pos h6] at h
              cases v with
              | vlist sups =>
                  replace h : p ∈ (if (sups.filterMap (cleanProductSupplier sm)).isEmpty = true
                      then acc
                      else dictSet acc k
                        (Value.vlist ((sups.filterMap (cleanProductSupplier sm)).map Value.vdict))) := h
                  by_cases hemp : (sups.filterMap (cleanProductSupplier sm)).isEmpty = true
                  · rw [if_pos hemp] at h
                    exact Or.inl h
                  · rw [if_neg hemp] at h
                    rcases mem_dictSet h with hm | hm
                    · exact Or.inl hm
                    · subst hm
                      exact Or.inr ⟨h1, h2, rfl,
                        Or.inr (Or.inr (Or.inr ⟨sups.filterMap (cleanProductSupplier sm), rfl⟩))⟩
              | vnull =>
                  replace h : p ∈ dictSet acc k Value.vnull := h
                  rcases mem_dictSet h with hm | hm
                  · exact Or.inl hm
                  · subst hm
                    exact Or.inr ⟨h1, h2, rfl, Or.inl rfl⟩
              | vbool b =>
                  replace h : p ∈ dictSet acc k (Value.vbool b) := h
                  rcases mem_dictSet h with hm | hm
                  · exact Or.inl hm
                  · subst hm
                    exact Or.inr ⟨h1, h2, rfl, Or.inl rfl⟩
              | vint n =>
                  replace h : p ∈ dictSet acc k (Value.vint n) := h
                  rcases mem_dictSet h with hm | hm
                  · exact Or.inl hm
                  · subst hm
                    exact Or.inr ⟨h1, h2, rfl, Or.inl rfl⟩
              | vstr s =>
                  replace h : p ∈ dictSet acc k (Value.vstr s) := h
                  rcases mem_dictSet h with hm | hm
                  · exact Or.inl hm
                  · subst hm
                    exact Or.inr ⟨h1, h2, rfl, Or.inl rfl⟩
              | vdict d =>
                  replace h : p ∈ dictSet acc k (Value.vdict d) := h
                  rcases mem_dictSet h with hm | hm
                  · exact Or.inl hm
                  · subst hm
                    exact Or.inr ⟨h1, h2, rfl, Or.inl rfl⟩
            · rw [if_neg h6] at h
              rcases mem_dictSet h with hm | hm
              · exact Or.inl hm
              · subst hm
                exact Or.inr ⟨h1, h2, rfl, Or.inl rfl⟩
  · simp only [Bool.not_eq_true] at h1
    rw [if_pos (by rw [h1]; decide)] at h
    exact Or.inl h

theorem mem_productRename {p : String × Value} {product t : Record}
    (h : p ∈ productRename product t) :
    p ∈ t ∨ (p = ("is_active", dget product "active") ∧ hasKey product "active" = true) := by
  unfold productRename at h
  by_cases hc : (!(hasKey t "is_active") && hasKey product "active") = true
  · rw [if_pos hc] at h
    rcases mem_dictSet h with h1 | h1
    · exact Or.inl h1
    · exact Or.inr ⟨h1, (Bool.and_eq_true_iff.mp hc).2⟩
  · rw [if_neg hc] at h
    exact Or.inl h

theorem mem_productPriceFix {p : String × Value} {ti : Bool} {t : Record}
    (h : p ∈ productPriceFix ti t) : p ∈ t := by
  unfold productPriceFix at h
  by_cases hc : (hasKey t "price_including_tax" && hasKey t "price_excluding_tax") = true
  · rw [if_pos hc] at h
    cases ti with
    | true => exact mem_dictDel (by simpa using h)
    | false => exact mem_dictDel (by simpa using h)
  · rw [if_neg hc] at h
    exact h

/-- Counterexample to C3 as stated: a product whose `active` field is null
yields a payload with a null-valued `is_active` field — the rename copies
the null value that the whitelist loop would have excluded. -/
theorem claim_C3_counterexample :
    transform_product_for_creation [("active", Value.vnull)] true [] [] =
      [("is_active", Value.vnull)] ∧
    dlookup (transform_product_for_creation [("active", Value.vnull)] true [] [])
      "is_active" = some Value.vnull := ⟨rfl, rfl⟩

/-- Claim C3 (amended): for every product, brand and supplier mapping with
non-null destination identifiers, and either tax mode, every key of the
payload is in the product allow-list, and the only field that can carry a
null value is `is_active`, copied by the rename from a null source `active`
value. -/
theorem claim_C3 (product : Record) (ti : Bool) (bm sm : IdMap)
    (hbm : idMapNullFree bm) (hsm : idMapNullFree sm) :
    (∀ kv ∈ transform_product_for_creation product ti bm sm,
      PRODUCT_ALLOWED_FIELDS.contains kv.1 = true) ∧
    (∀ kv ∈ transform_product_for_creation product ti bm sm,
      kv.2.isNull = true → kv.1 = "is_active" ∧ dlookup product "active" = some Value.vnull) := by
  have hloop : ∀ q ∈ product.foldl (productFieldStep bm sm) [],
      PRODUCT_ALLOWED_FIELDS.contains q.1 = true ∧ q.2.isNull = false := by
    refine foldl_record_inv (productFieldStep bm sm)
      (fun q => PRODUCT_ALLOWED_FIELDS.contains q.1 = true ∧ q.2.isNull = false)
      ?_ product [] (by intro q hq; exact absurd hq (List.not_mem_nil q))
    intro acc x hacc q hq
    obtain ⟨k, v⟩ := x
    rcases mem_productFieldStep hq with h1 | ⟨hcont, hnull, hkey, hval⟩
    · exact hacc q h1
    · refine ⟨by rw [hkey]; exact hcont, ?_⟩
      rcases hval with h2 | ⟨w, hw, h2⟩ | ⟨w, hw, h2⟩ | ⟨l, h2⟩
      · rw [h2]; exact hnull
      · rw [h2]; exact vlookup_nullFree hbm hw
      · rw [h2]; exact vlookup_nullFree hsm hw
      · rw [h2]; rfl
  constructor
  · intro kv hkv
    rcases mem_productPriceFix hkv with h1
    rcases mem_productRename h1 with h2 | ⟨h2, hact⟩
    · exact (hloop kv h2).1
    · rw [h2]
      exact (by decide : PRODUCT_ALLOWED_FIELDS.contains "is_active" = true)
  · intro kv hkv hnull
    rcases mem_productPriceFix hkv with h1
    rcases mem_productRename h1 with h2 | ⟨h2, hact⟩
    · rw [(hloop kv h2).2] at hnull
      exact absurd hnull (by simp)
    · subst h2
      refine ⟨rfl, ?_⟩
      unfold hasKey at hact
      cases hv : dlookup product "active" with
      | none => rw [hv] at hact; exact absurd hact (by simp)
      | some v =>
          have hnull2 : (dget product "active").isNull = true := hnull
          have hdg : dget product "active" = v := by unfold dget; rw [hv]; rfl
          rw [hdg] at hnull2
          rw [Value.eq_vnull_of_isNull hnull2]

/-- Fixture for the C3 witness: a product with a name and a null `active`
field. -/
def C3product : Record := [("name", .vstr "Product"), ("active", .vnull)]

/-- Witness for C3 (amended): on the concrete product the payload keys are
all allow-listed and its one null field is the renamed `is_active`, copied
from the null source `active`. -/
theorem claim_C3_witness :
    PRODUCT_ALLOWED_FIELDS.contains "name" = true ∧
    ("is_active" = "is_active" ∧ dlookup C3product "active" = some Value.vnull) :=
  ⟨(claim_C3 C3product true [] [] (by decide) (by decide)).1
      ("name", Value.vstr "Product") (by decide),
   (claim_C3 C3product true [] [] (by decide) (by decide)).2
      ("is_active", Value.vnull) (by decide) rfl⟩

/-- No key occurs twice in a record (every record built by the transformers
from an empty dict has this shape, like every Python dict). -/
def nodupKeysB : Record → Bool
  | [] => true
  | (k, _) :: rest => !(rest.any (fun kv => kv.1 == k)) && nodupKeysB rest

/-- A cleaned `product_codes` entry: a dict whose fields are all non-null
`type` or `code` fields. -/
def codesEntryOK (e : Value) : Bool :=
  match e with
  | .vdict d => d.all (fun kv => (kv.1 == "type" || kv.1 == "code") && !kv.2.isNull)
  | _ => false

/-- A possible `product_codes` value of a projected payload: non-list values
pass through verbatim, lists are non-empty lists of cleaned entries. -/
def codesFix (v : Value) : Bool :=
  match v with
  | .vlist l => !l.isEmpty && l.all codesEntryOK
  | _ => true

/-- A cleaned `product_suppliers` entry under an empty supplier map: a
non-empty duplicate-free dict of non-null `price` or `code` fields. -/
def supsEntryOK (e : Value) : Bool :=
  match e with
  | .vdict d =>
      !d.isEmpty && nodupKeysB d &&
        d.all (fun kv => (kv.1 == "price" || kv.1 == "code") && !kv.2.isNull)
  | _ => false

/-- A possible `product_suppliers` value of a payload projected with an
empty supplier map. -/
def supsFix (v : Value) : Bool :=
  match v with
  | .vlist l => !l.isEmpty && l.all supsEntryOK
  | _ => true

theorem hasKey_exists_mem {d : Record} {k : String} (h : hasKey d k = true) :
    ∃ v, (k, v) ∈ d := by
  induction d with
  | nil => simp [hasKey, dlookup] at h
  | cons a rest ih =>
      obtain ⟨ka, va⟩ := a
      by_cases hk : (ka == k) = true
      · exact ⟨va, by rw [eq_of_beq hk]; exact List.mem_cons_self _ _⟩
      · rw [show hasKey ((ka, va) :: rest) k = hasKey rest k from by
              simp [hasKey, dlookup, hk]] at h
        obtain ⟨v, hv⟩ := ih h
        exact ⟨v, List.mem_cons_of_mem _ hv⟩

theorem dictSet_fresh {d : Record} {k : String} (v : Value)
    (h : hasKey d k = false) : dictSet d k v = d ++ [(k, v)] := by
  induction d with
  | nil => rfl
  | cons a rest ih =>
      obtain ⟨ka, va⟩ := a
      by_cases hk : (ka == k) = true
      · rw [show hasKey ((ka, va) :: rest) k = true from by simp [hasKey, dlookup, hk]] at h
        exact absurd h (by simp)
      · rw [show hasKey ((ka, va) :: rest) k = hasKey rest k from by
              simp [hasKey, dlookup, hk]] at h
        rw [show dictSet ((ka, va) :: rest) k v = (ka, va) :: dictSet rest k v from by
              simp only [Bool.not_eq_true] at hk
              simp [dictSet, hk]]
        rw [ih h]
        rfl

theorem any_key_dictSet (d : Record) (k : String) (v : Value) (a : String) :
    ((dictSet d k v).any (fun kv => kv.1 == a)) =
      (d.any (fun kv => kv.1 == a) || (k == a)) := by
  induction d with
  | nil => simp [dictSet]
  | cons b rest ih =>
      obtain ⟨kb, vb⟩ := b
      by_cases hk : (kb == k) = true
      · rw [show dictSet ((kb, vb) :: rest) k v = (kb, v) :: rest from by simp [dictSet, hk]]
        have hkb : kb = k := eq_of_beq hk
        subst hkb
        cases hba : (kb == a) <;> simp [List.any_cons, hba]
      · rw [show dictSet ((kb, vb) :: rest) k v = (kb, vb) :: dictSet rest k v from by
              simp only [Bool.not_eq_true] at hk
              simp [dictSet, hk]]
        simp [List.any_cons, ih, Bool.or_assoc]

theorem nodupKeysB_dictSet {d : Record} (k : String) (v : Value)
    (h : nodupKeysB d = true) : nodupKeysB (dictSet d k v) = true := by
  induction d with
  | nil => rfl
  | cons b rest ih =>
      obtain ⟨kb, vb⟩ := b
      rw [show nodupKeysB ((kb, vb) :: rest) =
            (!(rest.any (fun kv => kv.1 == kb)) && nodupKeysB rest) from rfl] at h
      obtain ⟨h1, h2⟩ := Bool.and_eq_true_iff.mp h
      by_cases hk : (kb == k) = true
      · rw [show dictSet ((kb, vb) :: rest) k v = (kb, v) :: rest from by simp [dictSet, hk]]
        rw [show nodupKeysB ((kb, v) :: rest) =
              (!(rest.any (fun kv => kv.1 == kb)) && nodupKeysB rest) from rfl]
        rw [h1, h2]
        rfl
      · rw [show dictSet ((kb, vb) :: rest) k v = (kb, vb) :: dictSet rest k v from by
              simp only [Bool.not_eq_true] at hk
              simp [dictSet, hk]]
        rw [show nodupKeysB ((kb, vb) :: dictSet rest k v) =
              (!((dictSet rest k v).any (fun kv => kv.1 == kb)) &&
                nodupKeysB (dictSet rest k v)) from rfl]
        rw [any_key_dictSet, ih h2]
        have hkkb : (k == kb) = false := by
          rcases Bool.eq_false_or_eq_true (k == kb) with ht | hf
          · exact absurd (by rw [eq_of_beq ht]; exact beq_self_eq_true kb) hk
          · exact hf
        rw [hkkb]
        simp only [Bool.not_eq_true'] at h1
        rw [h1]
        rfl

theorem nodupKeysB_filter {d : Record} (q : String × Value → Bool)
    (h : nodupKeysB d = true) : nodupKeysB (d.filter q) = true := by
  induction d with
  | nil => rfl
  | cons b rest ih =>
      obtain ⟨kb, vb⟩ := b
      rw [show nodupKeysB ((kb, vb) :: rest) =
            (!(rest.any (fun kv => kv.1 == kb)) && nodupKeysB rest) from rfl] at h
      obtain ⟨h1, h2⟩ := Bool.and_eq_true_iff.mp h
      by_cases hq : q (kb, vb) = true
      · rw [List.filter_cons_of_pos hq]
        rw [show nodupKeysB ((kb, vb) :: rest.filter q) =
              (!((rest.filter q).any (fun kv => kv.1 == kb)) &&
                nodupKeysB (rest.filter q)) from rfl]
        rw [ih h2]
        have : ((rest.filter q).any (fun kv => kv.1 == kb)) = false := by
          rcases Bool.eq_false_or_eq_true ((rest.filter q).any (fun kv => kv.1 == kb)) with ht | hf
          swap
          · exact hf
          · obtain ⟨x, hx, hxk⟩ := List.any_eq_true.mp ht
            simp only [Bool.not_eq_true'] at h1
            have : rest.any (fun kv => kv.1 == kb) = true :=
              List.any_eq_true.mpr ⟨x, List.mem_of_mem_filter hx, hxk⟩
            rw [this] at h1
            exact absurd h1 (by simp)
        rw [this]
        rfl
      · rw [List.filter_cons_of_neg (by simpa using hq)]
        exact ih h2

theorem hasKey_dictDel_self (d : Record) (k : String) :
    hasKey (dictDel d k) k = false := by
  induction d with
  | nil => rfl
  | cons b rest ih =>
      obtain ⟨kb, vb⟩ := b
      by_cases hk : (kb == k) = true
      · rw [show dictDel ((kb, vb) :: rest) k = dictDel rest k from by
              simp [dictDel, List.filter_cons, hk]]
        exact ih
      · rw [show dictDel ((kb, vb) :: rest) k = (kb, vb) :: dictDel rest k from by
              simp only [Bool.not_eq_true] at hk
              simp [dictDel, List.filter_cons, hk]]
        rw [show hasKey ((kb, vb) :: dictDel rest k) k =
              ((kb == k) || hasKey (dictDel rest k) k) from by
              by_cases h2 : (kb == k) = true
              · simp [hasKey, dlookup, h2]
              · simp only [Bool.not_eq_true] at h2
                simp [hasKey, dlookup, h2]]
        rw [ih]
        simp only [Bool.not_eq_true] at hk
        rw [hk]
        rfl

theorem hasKey_append (a b : Record) (k : String) :
    hasKey (a ++ b) k = (hasKey a k || hasKey b k) := by
  induction a with
  | nil => simp [hasKey, dlookup]
  | cons x rest ih =>
      obtain ⟨kx, vx⟩ := x
      by_cases hk : (kx == k) = true
      · simp [hasKey, dlookup, hk]
      · simp only [Bool.not_eq_true] at hk
        simp only [hasKey, List.cons_append, dlookup, hk, Bool.false_eq_true, if_false]
        exact ih

theorem foldl_congr_mem {α β : Type} (l : List α) (f g : β → α → β)
    (h : ∀ x ∈ l, ∀ acc, f acc x = g acc x) :
    ∀ acc, l.foldl f acc = l.foldl g acc := by
  induction l with
  | nil => intro acc; rfl
  | cons x xs ih =>
      intro acc
      rw [List.foldl_cons, List.foldl_cons, h x (List.mem_cons_self _ _) acc]
      exact ih (fun y hy => h y (List.mem_cons_of_mem _ hy)) _

theorem refold_dictSet (d : Record) :
    ∀ acc : Record, nodupKeysB d = true →
    (∀ kv ∈ d, hasKey acc kv.1 = false) →
    d.foldl (fun t kv => dictSet t kv.1 kv.2) acc = acc ++ d := by
  induction d with
  | nil => intro acc _ _; simp
  | cons b rest ih =>
      intro acc hd hdisj
      obtain ⟨kb, vb⟩ := b
      rw [show nodupKeysB ((kb, vb) :: rest) =
            (!(rest.any (fun kv => kv.1 == kb)) && nodupKeysB rest) from rfl] at hd
      obtain ⟨h1, h2⟩ := Bool.and_eq_true_iff.mp hd
      rw [List.foldl_cons]
      rw [dictSet_fresh vb (hdisj (kb, vb) (List.mem_cons_self _ _))]
      rw [ih (acc ++ [(kb, vb)]) h2 ?_]
      · simp
      · intro kv hkv
        rw [hasKey_append]
        rw [hdisj kv (List.mem_cons_of_mem _ hkv)]
        simp only [Bool.not_eq_true'] at h1
        have hne : (kv.1 == kb) = false := by
          rcases Bool.eq_false_or_eq_true (kv.1 == kb) with ht | hf
          · have : rest.any (fun q => q.1 == kb) = true := List.any_eq_true.mpr ⟨kv, hkv, ht⟩
            rw [this] at h1
            exact absurd h1 (by simp)
          · exact hf
        by_cases hkb : (kb == kv.1) = true
        · rw [eq_of_beq hkb, beq_self_eq_true] at hne
          exact absurd hne (by simp)
        · simp only [Bool.not_eq_true] at hkb
          simp [hasKey, dlookup, hkb]

theorem foldl_acc_inv {α β : Type} (l : List α) (step : β → α → β) (P : β → Prop)
    (hstep : ∀ acc x, P acc → P (step acc x)) :
    ∀ acc, P acc → P (l.foldl step acc) := by
  induction l with
  | nil => intro acc h; exact h
  | cons x xs ih => intro acc h; exact ih _ (hstep acc x h)

theorem customerFieldStep_shape (acc : Record) (kv : String × Value) :
    customerFieldStep acc kv = acc ∨ customerFieldStep acc kv = dictSet acc kv.1 kv.2 := by
  unfold customerFieldStep
  by_cases h1 : CUSTOMER_STRIP_FIELDS.contains kv.1 = true
  · rw [if_pos h1]; exact Or.inl rfl
  · rw [if_neg h1]
    by_cases h2 : kv.2.isNull = true
    · rw [if_pos h2]; exact Or.inl rfl
    · rw [if_neg h2]
      by_cases h3 : (kv.1 == "customer_group" && kv.2.isDict) = true
      · rw [if_pos h3]; exact Or.inl rfl
      · rw [if_neg h3]; exact Or.inr rfl

theorem nodupKeysB_transform_customer (c : Record) :
    nodupKeysB (transform_customer_for_creation c) = true := by
  unfold transform_customer_for_creation
  refine foldl_acc_inv c customerFieldStep (fun t => nodupKeysB t = true) ?_ [] rfl
  intro acc kv h
  rcases customerFieldStep_shape acc kv with hs | hs
  · rw [hs]; exact h
  · rw [hs]; exact nodupKeysB_dictSet _ _ h

theorem transform_customer_keep (c : Record) :
    ∀ kv ∈ transform_customer_for_creation c,
      CUSTOMER_STRIP_FIELDS.contains kv.1 = false ∧ kv.2.isNull = false ∧
        (kv.1 == "customer_group" && kv.2.isDict) = false := by
  intro kv hkv
  unfold transform_customer_for_creation at hkv
  refine foldl_record_inv customerFieldStep
    (fun q => CUSTOMER_STRIP_FIELDS.contains q.1 = false ∧ q.2.isNull = false ∧
      (q.1 == "customer_group" && q.2.isDict) = false)
    ?_ c [] (by intro q hq; exact absurd hq (List.not_mem_nil q)) kv hkv
  intro acc x hacc q hq
  rcases mem_customerFieldStep hq with h1 | ⟨rfl, hs, hn, hg⟩
  · exact hacc q h1
  · exact ⟨hs, hn, hg⟩

theorem transform_customer_idem (c : Record) :
    transform_customer_for_creation (transform_customer_for_creation c) =
      transform_customer_for_creation c := by
  have hkeep := transform_customer_keep c
  have hnodup := nodupKeysB_transform_customer c
  have hstep : ∀ kv ∈ transform_customer_for_creation c, ∀ acc,
      customerFieldStep acc kv = dictSet acc kv.1 kv.2 := by
    intro kv hkv acc
    obtain ⟨hs, hn, hg⟩ := hkeep kv hkv
    unfold customerFieldStep
    rw [if_neg (by rw [hs]; decide), if_neg (by rw [hn]; decide), if_neg (by rw [hg]; decide)]
  calc transform_customer_for_creation (transform_customer_for_creation c)
      = (transform_customer_for_creation c).foldl customerFieldStep [] := rfl
    _ = (transform_customer_for_creation c).foldl (fun t kv => dictSet t kv.1 kv.2) [] :=
        foldl_congr_mem _ _ _ hstep []
    _ = [] ++ transform_customer_for_creation c :=
        refold_dictSet _ [] hnodup (fun kv _ => rfl)
    _ = transform_customer_for_creation c := by simp

theorem productFieldStep_shape (bm sm : IdMap) (acc : Record) (kv : String × Value) :
    productFieldStep bm sm acc kv = acc ∨
      ∃ k v, productFieldStep bm sm acc kv = dictSet acc k v := by
  unfold productFieldStep
  by_cases h1 : (!PRODUCT_ALLOWED_FIELDS.contains kv.1) = true
  · rw [if_pos h1]; exact Or.inl rfl
  · rw [if_neg h1]
    by_cases h2 : kv.2.isNull = true
    · rw [if_pos h2]; exact Or.inl rfl
    · rw [if_neg h2]
      by_cases h3 : (kv.1 == "brand_id") = true
      · rw [if_pos h3]
        cases vlookup bm kv.2 with
        | some mapped => exact Or.inr ⟨kv.1, mapped, rfl⟩
        | none => exact Or.inl rfl
      · rw [if_neg h3]
        by_cases h4 : (kv.1 == "supplier_id") = true
        · rw [if_pos h4]
          cases vlookup sm kv.2 with
          | some mapped => exact Or.inr ⟨kv.1, mapped, rfl⟩
          | none => exact Or.inl rfl
        · rw [if_neg h4]
          by_cases h5 : (kv.1 == "product_codes") = true
          · rw [if_pos h5]
            obtain ⟨k, v⟩ := kv
            cases v with
            | vlist codes =>
                by_cases hemp : (codes.filterMap cleanProductCode).isEmpty = true
                · refine Or.inl ?_
                  show (if (codes.filterMap cleanProductCode).isEmpty = true then acc
                        else dictSet acc k
                          (Value.vlist ((codes.filterMap cleanProductCode).map Value.vdict))) = acc
                  rw [if_pos hemp]
                · refine Or.inr ⟨k,
                    Value.vlist ((codes.filterMap cleanProductCode).map Value.vdict), ?_⟩
                  show (if (codes.filterMap cleanProductCode).isEmpty = true then acc
                        else dictSet acc k
                          (Value.vlist ((codes.filterMap cleanProductCode).map Value.vdict))) =
                       dictSet acc k
                         (Value.vlist ((codes.filterMap cleanProductCode).map Value.vdict))
                  rw [if_neg hemp]
            | vnull => exact Or.inr ⟨k, _, rfl⟩
            | vbool b => exact Or.inr ⟨k, _, rfl⟩
            | vint n => exact Or.inr ⟨k, _, rfl⟩
            | vstr s => exact Or.inr ⟨k, _, rfl⟩
            | vdict d => exact Or.inr ⟨k, _, rfl⟩
          · rw [if_neg h5]
            by_cases h6 : (kv.1 == "product_suppliers") = true
            · rw [if_pos h6]
              obtain ⟨k, v⟩ := kv
              cases v with
              | vlist sups =>
                  by_cases hemp : (sups.filterMap (cleanProductSupplier sm)).isEmpty = true
                  · refine Or.inl ?_
                    show (if (sups.filterMap (cleanProductSupplier sm)).isEmpty = true then acc
                          else dictSet acc k
                            (Value.vlist ((sups.filterMap (cleanProductSupplier sm)).map Value.vdict))) = acc
                    rw [if_pos hemp]
                  · refine Or.inr ⟨k,
                      Value.vlist ((sups.filterMap (cleanProductSupplier sm)).map Value.vdict), ?_⟩
                    show (if (sups.filterMap (cleanProductSupplier sm)).isEmpty = true then acc
                          else dictSet acc k
                            (Value.vlist ((sups.filterMap (cleanProductSupplier sm)).map Value.vdict))) =
                         dictSet acc k
                           (Value.vlist ((sups.filterMap (cleanProductSupplier sm)).map Value.vdict))
                    rw [if_neg hemp]
              | vnull => exact Or.inr ⟨k, _, rfl⟩
              | vbool b => exact Or.inr ⟨k, _, rfl⟩
              | vint n => exact Or.inr ⟨k, _, rfl⟩
              | vstr s => exact Or.inr ⟨k, _, rfl⟩
              | vdict d => exact Or.inr ⟨k, _, rfl⟩
            · rw [if_neg h6]
              exact Or.inr ⟨kv.1, kv.2, rfl⟩

theorem filter_all_self {α : Type} (l : List α) (q : α → Bool) :
    (l.filter q).all q = true := by
  rw [List.all_eq_true]
  intro x hx
  exact List.of_mem_filter hx

theorem cleanProductCode_entryOK {e : Value} {d : Record}
    (h : cleanProductCode e = some d) : codesEntryOK (Value.vdict d) = true := by
  cases e with
  | vdict d0 =>
      unfold cleanProductCode at h
      obtain rfl : _ = d := by injection h
      unfold codesEntryOK
      exact filter_all_self d0 _
  | vnull => exact absurd h (by simp [cleanProductCode])
  | vbool b => exact absurd h (by simp [cleanProductCode])
  | vint n => exact absurd h (by simp [cleanProductCode])
  | vstr s => exact absurd h (by simp [cleanProductCode])
  | vlist l => exact absurd h (by simp [cleanProductCode])

theorem cleanProductCode_of_entryOK {e : Value} (h : codesEntryOK e = true) :
    ∃ d : Record, e = Value.vdict d ∧ cleanProductCode e = some d := by
  cases e with
  | vdict d0 =>
      refine ⟨d0, rfl, ?_⟩
      replace h : d0.all (fun kv => (kv.1 == "type" || kv.1 == "code") && !kv.2.isNull) = true := h
      show some (d0.filter (fun kv => (kv.1 == "type" || kv.1 == "code") && !kv.2.isNull)) = some d0
      rw [List.filter_eq_self.mpr (fun a ha => List.all_eq_true.mp h a ha)]
  | vnull => exact absurd h (by simp [codesEntryOK])
  | vbool b => exact absurd h (by simp [codesEntryOK])
  | vint n => exact absurd h (by simp [codesEntryOK])
  | vstr s => exact absurd h (by simp [codesEntryOK])
  | vlist l => exact absurd h (by simp [codesEntryOK])

theorem codes_refilter {l : List Value} (h : l.all codesEntryOK = true) :
    (l.filterMap cleanProductCode).map Value.vdict = l ∧
      (l.filterMap cleanProductCode).isEmpty = l.isEmpty := by
  induction l with
  | nil => exact ⟨rfl, rfl⟩
  | cons e rest ih =>
      rw [List.all_cons, Bool.and_eq_true] at h
      obtain ⟨d, rfl, hc⟩ := cleanProductCode_of_entryOK h.1
      obtain ⟨ih1, _⟩ := ih h.2
      rw [List.filterMap_cons, hc]
      exact ⟨by rw [List.map_cons, ih1], rfl⟩

theorem supplierFieldStep_shape (sm : IdMap) (acc : Record) (kv : String × Value) :
    supplierFieldStep sm acc kv = acc ∨
      ∃ k v, supplierFieldStep sm acc kv = dictSet acc k v := by
  unfold supplierFieldStep
  by_cases h1 : ((!(kv.1 == "supplier_id" || kv.1 == "price" || kv.1 == "code")) || kv.2.isNull) = true
  · rw [if_pos h1]; exact Or.inl rfl
  · rw [if_neg h1]
    by_cases h2 : (kv.1 == "supplier_id") = true
    · rw [if_pos h2]
      cases vlookup sm kv.2 with
      | some mapped => exact Or.inr ⟨kv.1, mapped, rfl⟩
      | none => exact Or.inl rfl
    · rw [if_neg h2]
      exact Or.inr ⟨kv.1, kv.2, rfl⟩

theorem mem_supplierFieldStep_empty {p : String × Value} {acc : Record}
    {kv : String × Value} (h : p ∈ supplierFieldStep [] acc kv) :
    p ∈ acc ∨ (p = kv ∧ ((kv.1 == "price" || kv.1 == "code") && !kv.2.isNull) = true) := by
  unfold supplierFieldStep at h
  by_cases h1 : ((!(kv.1 == "supplier_id" || kv.1 == "price" || kv.1 == "code")) || kv.2.isNull) = true
  · rw [if_pos h1] at h
    exact Or.inl h
  · rw [if_neg h1] at h
    by_cases h2 : (kv.1 == "supplier_id") = true
    · rw [if_pos h2] at h
      replace h : p ∈ acc := h
      exact Or.inl h
    · rw [if_neg h2] at h
      rcases mem_dictSet h with h3 | h3
      · exact Or.inl h3
      · right
        refine ⟨h3, ?_⟩
        simp only [Bool.not_eq_true] at h1 h2
        rw [Bool.or_eq_false_iff] at h1
        obtain ⟨hg, hnull⟩ := h1
        have habc : (kv.1 == "supplier_id" || kv.1 == "price" || kv.1 == "code") = true := by
          rcases Bool.eq_false_or_eq_true
              (kv.1 == "supplier_id" || kv.1 == "price" || kv.1 == "code") with ht | hf
          · exact ht
          · rw [hf] at hg
            exact absurd hg (by decide)
        rw [h2] at habc
        simp only [Bool.false_or] at habc
        rw [habc, hnull]
        rfl

theorem cleanProductSupplier_entryOK {e : Value} {d : Record}
    (h : cleanProductSupplier [] e = some d) : supsEntryOK (Value.vdict d) = true := by
  cases e with
  | vdict d0 =>
      replace h : (if (d0.foldl (supplierFieldStep []) []).isEmpty = true then none
          else some (d0.foldl (supplierFieldStep []) [])) = some d := h
      by_cases hemp : (d0.foldl (supplierFieldStep []) []).isEmpty = true
      · rw [if_pos hemp] at h
        exact absurd h (by simp)
      · rw [if_neg hemp] at h
        obtain rfl : _ = d := by injection h
        show (!(d0.foldl (supplierFieldStep []) []).isEmpty && nodupKeysB (d0.foldl (supplierFieldStep []) []) &&
          (d0.foldl (supplierFieldStep []) []).all
            (fun kv => (kv.1 == "price" || kv.1 == "code") && !kv.2.isNull)) = true
        have hnd : nodupKeysB (d0.foldl (supplierFieldStep []) []) = true := by
          refine foldl_acc_inv d0 (supplierFieldStep []) (fun t => nodupKeysB t = true) ?_ [] rfl
          intro acc kv hnd
          rcases supplierFieldStep_shape [] acc kv with hs | ⟨k, v, hs⟩
          · rw [hs]; exact hnd
          · rw [hs]; exact nodupKeysB_dictSet _ _ hnd
        have hall : (d0.foldl (supplierFieldStep []) []).all
            (fun kv => (kv.1 == "price" || kv.1 == "code") && !kv.2.isNull) = true := by
          rw [List.all_eq_true]
          intro q hq
          refine foldl_record_inv (supplierFieldStep [])
            (fun q => ((q.1 == "price" || q.1 == "code") && !q.2.isNull) = true)
            ?_ d0 [] (by intro r hr; exact absurd hr (List.not_mem_nil r)) q hq
          intro acc x hacc r hr
          rcases mem_supplierFieldStep_empty hr with h1 | ⟨rfl, h2⟩
          · exact hacc r h1
          · exact h2
        simp only [Bool.not_eq_true] at hemp
        rw [hemp, hnd, hall]
        rfl
  | vnull => exact absurd h (by simp [cleanProductSupplier])
  | vbool b => exact absurd h (by simp [cleanProductSupplier])
  | vint n => exact absurd h (by simp [cleanProductSupplier])
  | vstr s => exact absurd h (by simp [cleanProductSupplier])
  | vlist l => exact absurd h (by simp [cleanProductSupplier])

theorem cleanProductSupplier_of_entryOK {e : Value} (h : supsEntryOK e = true) :
    ∃ d : Record, e = Value.vdict d ∧ cleanProductSupplier [] e = some d := by
  cases e with
  | vdict d =>
      refine ⟨d, rfl, ?_⟩
      replace h : (!d.isEmpty && nodupKeysB d &&
          d.all (fun kv => (kv.1 == "price" || kv.1 == "code") && !kv.2.isNull)) = true := h
      obtain ⟨h12, hall⟩ := Bool.and_eq_true_iff.mp h
      obtain ⟨hne, hnd⟩ := Bool.and_eq_true_iff.mp h12
      have hfold : d.foldl (supplierFieldStep []) [] = d := by
        have hstep : ∀ kv ∈ d, ∀ acc, supplierFieldStep [] acc kv = dictSet acc kv.1 kv.2 := by
          intro kv hkv acc
          have hp := List.all_eq_true.mp hall kv hkv
          obtain ⟨hpc, hnn⟩ := Bool.and_eq_true_iff.mp hp
          have hsup : (kv.1 == "supplier_id") = false := by
            rcases Bool.or_eq_true_iff.mp hpc with hx | hx
            · rw [eq_of_beq hx]; rfl
            · rw [eq_of_beq hx]; rfl
          have hnn2 : kv.2.isNull = false := by
            simp only [Bool.not_eq_true'] at hnn
            exact hnn
          unfold supplierFieldStep
          rw [if_neg (by rw [hsup]
                         simp only [Bool.false_or]
                         rw [hpc, hnn2]
                         decide)]
          rw [if_neg (by rw [hsup]; decide)]
        rw [foldl_congr_mem d _ _ hstep []]
        exact (refold_dictSet d [] hnd (fun kv _ => rfl)).trans (by simp)
      show (if (d.foldl (supplierFieldStep []) []).isEmpty = true then none
          else some (d.foldl (supplierFieldStep []) [])) = some d
      rw [hfold]
      rw [if_neg (by simp only [Bool.not_eq_true'] at hne; rw [hne]; decide)]
  | vnull => exact absurd h (by simp [supsEntryOK])
  | vbool b => exact absurd h (by simp [supsEntryOK])
  | vint n => exact absurd h (by simp [supsEntryOK])
  | vstr s => exact absurd h (by simp [supsEntryOK])
  | vlist l => exact absurd h (by simp [supsEntryOK])

theorem sups_refilter {l : List Value} (h : l.all supsEntryOK = true) :
    (l.filterMap (cleanProductSupplier [])).map Value.vdict = l ∧
      (l.filterMap (cleanProductSupplier [])).isEmpty = l.isEmpty := by
  induction l with
  | nil => exact ⟨rfl, rfl⟩
  | cons e rest ih =>
      rw [List.all_cons, Bool.and_eq_true] at h
      obtain ⟨d, rfl, hc⟩ := cleanProductSupplier_of_entryOK h.1
      obtain ⟨ih1, _⟩ := ih h.2
      rw [List.filterMap_cons, hc]
      exact ⟨by rw [List.map_cons, ih1], rfl⟩

theorem mem_productFieldStep_empty {p : String × Value} {acc : Record}
    {k : String} {v : Value} (h : p ∈ productFieldStep [] [] acc (k, v)) :
    p ∈ acc ∨
      (PRODUCT_ALLOWED_FIELDS.contains k = true ∧ p.1 = k ∧
       (k == "brand_id") = false ∧ (k == "supplier_id") = false ∧
       (k = "product_codes" → codesFix p.2 = true) ∧
       (k = "product_suppliers" → supsFix p.2 = true)) := by
  unfold productFieldStep at h
  simp only [] at h
  by_cases h1 : PRODUCT_ALLOWED_FIELDS.contains k = true
  · rw [if_neg (by rw [h1]; decide)] at h
    by_cases h2 : v.isNull = true
    · rw [if_pos h2] at h
      exact Or.inl h
    · simp only [Bool.not_eq_true] at h2
      rw [if_neg (by rw [h2]; decide)] at h
      by_cases h3 : (k == "brand_id") = true
      · rw [if_pos h3] at h
        replace h : p ∈ acc := h
        exact Or.inl h
      · rw [if_neg h3] at h
        simp only [Bool.not_eq_true] at h3
        by_cases h4 : (k == "supplier_id") = true
        · rw [if_pos h4] at h
          replace h : p ∈ acc := h
          exact Or.inl h
        · rw [if_neg h4] at h
          simp only [Bool.not_eq_true] at h4
          by_cases h5 : (k == "product_codes") = true
          · rw [if_pos h5] at h
            have hk : k = "product_codes" := eq_of_beq h5
            cases v with
            | vlist codes =>
                replace h : p ∈ (if (codes.filterMap cleanProductCode).isEmpty = true then acc
                    else dictSet acc k
                      (Value.vlist ((codes.filterMap cleanProductCode).map Value.vdict))) := h
                by_cases hemp : (codes.filterMap cleanProductCode).isEmpty = true
                · rw [if_pos hemp] at h
                  exact Or.inl h
                · rw [if_neg hemp] at h
                  rcases mem_dictSet h with hm | hm
                  · exact Or.inl hm
                  · subst hm
                    refine Or.inr ⟨h1, rfl, by rw [hk]; decide, by rw [hk]; decide, ?_, ?_⟩
                    · intro _
                      show (!((codes.filterMap cleanProductCode).map Value.vdict).isEmpty &&
                        ((codes.filterMap cleanProductCode).map Value.vdict).all codesEntryOK) = true
                      have hie : ((codes.filterMap cleanProductCode).map Value.vdict).isEmpty =
                          (codes.filterMap cleanProductCode).isEmpty := by
                        cases codes.filterMap cleanProductCode <;> rfl
                      have hall : ((codes.filterMap cleanProductCode).map Value.vdict).all
                          codesEntryOK = true := by
                        rw [List.all_eq_true]
                        intro e he
                        obtain ⟨d, hd, rfl⟩ := List.mem_map.mp he
                        obtain ⟨c, _, hc⟩ := List.mem_filterMap.mp hd
                        exact cleanProductCode_entryOK hc
                      rw [hie, hall]
                      simp only [Bool.not_eq_true] at hemp
                      rw [hemp]
                      rfl
                    · intro hks
                      rw [hk] at hks
                      exact absurd hks (by decide)
            | vnull => exact absurd h2 (by decide)
            | vbool b =>
                replace h : p ∈ dictSet acc k (Value.vbool b) := h
                rcases mem_dictSet h with hm | hm
                · exact Or.inl hm
                · subst hm
                  exact Or.inr ⟨h1, rfl, by rw [hk]; decide, by rw [hk]; decide,
                    fun _ => rfl, fun hks => absurd (hk ▸ hks) (by decide)⟩
            | vint n =>
                replace h : p ∈ dictSet acc k (Value.vint n) := h
                rcases mem_dictSet h with hm | hm
                · exact Or.inl hm
                · subst hm
                  exact Or.inr ⟨h1, rfl, by rw [hk]; decide, by rw [hk]; decide,
                    fun _ => rfl, fun hks => absurd (hk ▸ hks) (by decide)⟩
            | vstr s =>
                replace h : p ∈ dictSet acc k (Value.vstr s) := h
                rcases mem_dictSet h with hm | hm
                · exact Or.inl hm
                · subst hm
                  exact Or.inr ⟨h1, rfl, by rw [hk]; decide, by rw [hk]; decide,
                    fun _ => rfl, fun hks => absurd (hk ▸ hks) (by decide)⟩
            | vdict d =>
                replace h : p ∈ dictSet acc k (Value.vdict d) := h
                rcases mem_dictSet h with hm | hm
                · exact Or.inl hm
                · subst hm
                  exact Or.inr ⟨h1, rfl, by rw [hk]; decide, by rw [hk]; decide,
                    fun _ => rfl, fun hks => absurd (hk ▸ hks) (by decide)⟩
          · rw [if_neg h5] at h
            simp only [Bool.not_eq_true] at h5
            by_cases h6 : (k == "product_suppliers") = true
            · rw [if_pos h6] at h
              have hk : k = "product_suppliers" := eq_of_beq h6
              cases v with
              | vlist sups =>
                  replace h : p ∈ (if (sups.filterMap (cleanProductSupplier [])).isEmpty = true
                      then acc
                      else dictSet acc k
                        (Value.vlist ((sups.filterMap (cleanProductSupplier [])).map Value.vdict))) := h
                  by_cases hemp : (sups.filterMap (cleanProductSupplier [])).isEmpty = true
                  · rw [if_pos hemp] at h
                    exact Or.inl h
                  · rw [if_neg hemp] at h
                    rcases mem_dictSet h with hm | hm
                    · exact Or.inl hm
                    · subst hm
                      refine Or.inr ⟨h1, rfl, by rw [hk]; decide, by rw [hk]; decide, ?_, ?_⟩
                      · intro hks
                        rw [hk] at hks
                        exact absurd hks (by decide)
                      · intro _
                        show (!((sups.filterMap (cleanProductSupplier [])).map Value.vdict).isEmpty &&
                          ((sups.filterMap (cleanProductSupplier [])).map Value.vdict).all supsEntryOK) = true
                        have hie : ((sups.filterMap (cleanProductSupplier [])).map Value.vdict).isEmpty =
                            (sups.filterMap (cleanProductSupplier [])).isEmpty := by
                          cases sups.filterMap (cleanProductSupplier []) <;> rfl
                        have hall : ((sups.filterMap (cleanProductSupplier [])).map Value.vdict).all
                            supsEntryOK = true := by
                          rw [List.all_eq_true]
                          intro e he
                          obtain ⟨d, hd, rfl⟩ := List.mem_map.mp he
                          obtain ⟨c, _, hc⟩ := List.mem_filterMap.mp hd
                          exact cleanProductSupplier_entryOK hc
                        rw [hie, hall]
                        simp only [Bool.not_eq_true] at hemp
                        rw [hemp]
                        rfl
              | vnull => exact absurd h2 (by decide)
              | vbool b =>
                  replace h : p ∈ dictSet acc k (Value.vbool b) := h
                  rcases mem_dictSet h with hm | hm
                  · exact Or.inl hm
                  · subst hm
                    exact Or.inr ⟨h1, rfl, by rw [hk]; decide, by rw [hk]; decide,
                      fun hks => absurd (hk ▸ hks) (by decide), fun _ => rfl⟩
              | vint n =>
                  replace h : p ∈ dictSet acc k (Value.vint n) := h
                  rcases mem_dictSet h with hm | hm
                  · exact Or.inl hm
                  · subst hm
                    exact Or.inr ⟨h1, rfl, by rw [hk]; decide, by rw [hk]; decide,
                      fun hks => absurd (hk ▸ hks) (by decide), fun _ => rfl⟩
              | vstr s =>
                  replace h : p ∈ dictSet acc k (Value.vstr s) := h
                  rcases mem_dictSet h with hm | hm
                  · exact Or.inl hm
                  · subst hm
                    exact Or.inr ⟨h1, rfl, by rw [hk]; decide, by rw [hk]; decide,
                      fun hks => absurd (hk ▸ hks) (by decide), fun _ => rfl⟩
              | vdict d =>
                  replace h : p ∈ dictSet acc k (Value.vdict d) := h
                  rcases mem_dictSet h with hm | hm
                  · exact Or.inl hm
                  · subst hm
                    exact Or.inr ⟨h1, rfl, by rw [hk]; decide, by rw [hk]; decide,
                      fun hks => absurd (hk ▸ hks) (by decide), fun _ => rfl⟩
            · rw [if_neg h6] at h
              simp only [Bool.not_eq_true] at h6
              rcases mem_dictSet h with hm | hm
              · exact Or.inl hm
              · subst hm
                refine Or.inr ⟨h1, rfl, h3, h4, ?_, ?_⟩
                · intro hks
                  rw [hks] at h5
                  exact absurd h5 (by decide)
                · intro hks
                  rw [hks] at h6
                  exact absurd h6 (by decide)
  · simp only [Bool.not_eq_true] at h1
    rw [if_pos (by rw [h1]; decide)] at h
    exact Or.inl h

theorem product_loop_props (p : Record) :
    ∀ kv ∈ p.foldl (productFieldStep [] []) [],
      PRODUCT_ALLOWED_FIELDS.contains kv.1 = true ∧
      (kv.1 == "brand_id") = false ∧ (kv.1 == "supplier_id") = false ∧
      (kv.1 = "product_codes" → codesFix kv.2 = true) ∧
      (kv.1 = "product_suppliers" → supsFix kv.2 = true) := by
  intro kv hkv
  refine foldl_record_inv (productFieldStep [] [])
    (fun q => PRODUCT_ALLOWED_FIELDS.contains q.1 = true ∧
      (q.1 == "brand_id") = false ∧ (q.1 == "supplier_id") = false ∧
      (q.1 = "product_codes" → codesFix q.2 = true) ∧
      (q.1 = "product_suppliers" → supsFix q.2 = true))
    ?_ p [] (by intro q hq; exact absurd hq (List.not_mem_nil q)) kv hkv
  intro acc x hacc q hq
  obtain ⟨k, v⟩ := x
  rcases mem_productFieldStep_empty hq with h1 | ⟨hc, hk, hb, hs, hcod, hsup⟩
  · exact hacc q h1
  · refine ⟨by rw [hk]; exact hc, by rw [hk]; exact hb, by rw [hk]; exact hs, ?_, ?_⟩
    · intro hq1
      exact hcod (hk ▸ hq1)
    · intro hq1
      exact hsup (hk ▸ hq1)

theorem nodupKeysB_product_loop (p : Record) (bm sm : IdMap) :
    nodupKeysB (p.foldl (productFieldStep bm sm) []) = true := by
  refine foldl_acc_inv p (productFieldStep bm sm) (fun t => nodupKeysB t = true) ?_ [] rfl
  intro acc kv h
  rcases productFieldStep_shape bm sm acc kv with hs | ⟨k, v, hs⟩
  · rw [hs]; exact h
  · rw [hs]; exact nodupKeysB_dictSet _ _ h

theorem nodupKeysB_productRename (p t : Record) (h : nodupKeysB t = true) :
    nodupKeysB (productRename p t) = true := by
  unfold productRename
  by_cases hc : ((!hasKey t "is_active") && hasKey p "active") = true
  · rw [if_pos hc]
    exact nodupKeysB_dictSet _ _ h
  · rw [if_neg hc]
    exact h

theorem nodupKeysB_productPriceFix (ti : Bool) (t : Record) (h : nodupKeysB t = true) :
    nodupKeysB (productPriceFix ti t) = true := by
  unfold productPriceFix
  by_cases hc : (hasKey t "price_including_tax" && hasKey t "price_excluding_tax") = true
  · rw [if_pos hc]
    cases ti with
    | true => exact nodupKeysB_filter _ h
    | false => exact nodupKeysB_filter _ h
  · rw [if_neg hc]
    exact h

theorem productPriceFix_excl (ti : Bool) (t : Record) :
    (hasKey (productPriceFix ti t) "price_including_tax" &&
      hasKey (productPriceFix ti t) "price_excluding_tax") = false := by
  unfold productPriceFix
  by_cases hc : (hasKey t "price_including_tax" && hasKey t "price_excluding_tax") = true
  · rw [if_pos hc]
    cases ti with
    | true =>
        show (hasKey (dictDel t "price_excluding_tax") "price_including_tax" &&
          hasKey (dictDel t "price_excluding_tax") "price_excluding_tax") = false
        rw [hasKey_dictDel_self]
        simp
    | false =>
        show (hasKey (dictDel t "price_including_tax") "price_including_tax" &&
          hasKey (dictDel t "price_including_tax") "price_excluding_tax") = false
        rw [hasKey_dictDel_self]
        simp
  · rw [if_neg hc]
    simp only [Bool.not_eq_true] at hc
    exact hc

theorem product_out_mem (p : Record) (ti : Bool) :
    ∀ kv ∈ transform_product_for_creation p ti [] [],
      PRODUCT_ALLOWED_FIELDS.contains kv.1 = true ∧
      (kv.1 == "brand_id") = false ∧ (kv.1 == "supplier_id") = false ∧
      (kv.1 = "product_codes" → codesFix kv.2 = true) ∧
      (kv.1 = "product_suppliers" → supsFix kv.2 = true) := by
  intro kv hkv
  have h1 := mem_productPriceFix hkv
  rcases mem_productRename h1 with h2 | ⟨h2, hact⟩
  · exact product_loop_props p kv h2
  · rw [h2]
    refine ⟨(by decide : PRODUCT_ALLOWED_FIELDS.contains "is_active" = true),
      (by decide : (("is_active" : String) == "brand_id") = false),
      (by decide : (("is_active" : String) == "supplier_id") = false), ?_, ?_⟩
    · intro hk
      exact absurd hk (show ¬(("is_active" : String) = "product_codes") by decide)
    · intro hk
      exact absurd hk (show ¬(("is_active" : String) = "product_suppliers") by decide)

theorem nodupKeysB_product_out (p : Record) (ti : Bool) :
    nodupKeysB (transform_product_for_creation p ti [] []) = true :=
  nodupKeysB_productPriceFix ti _
    (nodupKeysB_productRename p _ (nodupKeysB_product_loop p [] []))

theorem productFieldStep_eq_dictSet_empty {k : String} {v : Value}
    (hcont : PRODUCT_ALLOWED_FIELDS.contains k = true)
    (hnull : v.isNull = false)
    (hbr : (k == "brand_id") = false) (hsu : (k == "supplier_id") = false)
    (hco : k = "product_codes" → codesFix v = true)
    (hsp : k = "product_suppliers" → supsFix v = true) :
    ∀ acc, productFieldStep [] [] acc (k, v) = dictSet acc k v := by
  intro acc
  unfold productFieldStep
  simp only []
  rw [if_neg (by rw [hcont]; decide)]
  rw [if_neg (by rw [hnull]; decide)]
  rw [if_neg (by rw [hbr]; decide)]
  rw [if_neg (by rw [hsu]; decide)]
  by_cases h5 : (k == "product_codes") = true
  · rw [if_pos h5]
    have hk : k = "product_codes" := eq_of_beq h5
    cases v with
    | vlist codes =>
        have hfix : (!codes.isEmpty && codes.all codesEntryOK) = true := hco hk
        obtain ⟨hne, hall⟩ := Bool.and_eq_true_iff.mp hfix
        obtain ⟨hmap, hie⟩ := codes_refilter hall
        show (if (codes.filterMap cleanProductCode).isEmpty = true then acc
              else dictSet acc k
                (Value.vlist ((codes.filterMap cleanProductCode).map Value.vdict))) =
             dictSet acc k (Value.vlist codes)
        rw [hmap, hie]
        rw [if_neg (by simp only [Bool.not_eq_true'] at hne; rw [hne]; decide)]
    | vnull => exact absurd hnull (by decide)
    | vbool b => rfl
    | vint n => rfl
    | vstr s => rfl
    | vdict d => rfl
  · rw [if_neg h5]
    by_cases h6 : (k == "product_suppliers") = true
    · rw [if_pos h6]
      have hk : k = "product_suppliers" := eq_of_beq h6
      cases v with
      | vlist sups =>
          have hfix : (!sups.isEmpty && sups.all supsEntryOK) = true := hsp hk
          obtain ⟨hne, hall⟩ := Bool.and_eq_true_iff.mp hfix
          obtain ⟨hmap, hie⟩ := sups_refilter hall
          show (if (sups.filterMap (cleanProductSupplier [])).isEmpty = true then acc
                else dictSet acc k
                  (Value.vlist ((sups.filterMap (cleanProductSupplier [])).map Value.vdict))) =
               dictSet acc k (Value.vlist sups)
          rw [hmap, hie]
          rw [if_neg (by simp only [Bool.not_eq_true'] at hne; rw [hne]; decide)]
      | vnull => exact absurd hnull (by decide)
      | vbool b => rfl
      | vint n => rfl
      | vstr s => rfl
      | vdict d => rfl
    · rw [if_neg h6]

theorem transform_product_empty_idem (p : Record) (ti : Bool)
    (hnn : ∀ kv ∈ transform_product_for_creation p ti [] [], kv.2.isNull = false) :
    transform_product_for_creation (transform_product_for_creation p ti [] []) ti [] [] =
      transform_product_for_creation p ti [] [] := by
  have hmem := product_out_mem p ti
  have hnodup := nodupKeysB_product_out p ti
  have hloop : (transform_product_for_creation p ti [] []).foldl (productFieldStep [] []) [] =
      transform_product_for_creation p ti [] [] := by
    have hstep : ∀ kv ∈ transform_product_for_creation p ti [] [], ∀ acc,
        productFieldStep [] [] acc kv = dictSet acc kv.1 kv.2 := by
      intro kv hkv acc
      obtain ⟨hc, hb, hs, hco, hsp⟩ := hmem kv hkv
      exact productFieldStep_eq_dictSet_empty hc (hnn kv hkv) hb hs hco hsp acc
    rw [foldl_congr_mem _ _ _ hstep []]
    exact (refold_dictSet _ [] hnodup (fun kv _ => rfl)).trans (by simp)
  have hactive : hasKey (transform_product_for_creation p ti [] []) "active" = false := by
    rcases Bool.eq_false_or_eq_true
        (hasKey (transform_product_for_creation p ti [] []) "active") with ht | hf
    · obtain ⟨v, hv⟩ := hasKey_exists_mem ht
      have := (hmem ("active", v) hv).1
      exact absurd this (show ¬(PRODUCT_ALLOWED_FIELDS.contains "active" = true) by decide)
    · exact hf
  have hrename : productRename (transform_product_for_creation p ti [] [])
      (transform_product_for_creation p ti [] []) =
      transform_product_for_creation p ti [] [] := by
    unfold productRename
    rw [hactive]
    simp
  have hpf : productPriceFix ti (transform_product_for_creation p ti [] []) =
      transform_product_for_creation p ti [] [] := by
    have hexcl := productPriceFix_excl ti
      (productRename p (p.foldl (productFieldStep [] []) []))
    unfold productPriceFix
    rw [if_neg (by rw [show (hasKey (transform_product_for_creation p ti [] [])
          "price_including_tax" &&
          hasKey (transform_product_for_creation p ti [] []) "price_excluding_tax") = false
        from hexcl]; decide)]
  show productPriceFix ti
      (productRename (transform_product_for_creation p ti [] [])
        ((transform_product_for_creation p ti [] []).foldl (productFieldStep [] []) [])) =
      transform_product_for_creation p ti [] []
  rw [hloop, hrename, hpf]

/-- Counterexample to C6 as stated: re-projecting a product whose `brand_id`
was already mapped drops the brand reference, because the destination brand
identifier has no entry in the same brand map — product projection is not
idempotent under a non-empty mapping. -/
theorem claim_C6_counterexample :
    transform_product_for_creation
      (transform_product_for_creation [("name", Value.vstr "x"), ("brand_id", Value.vstr "b1")]
        true [(Value.vstr "b1", Value.vstr "b2")] [])
      true [(Value.vstr "b1", Value.vstr "b2")] [] ≠
    transform_product_for_creation [("name", Value.vstr "x"), ("brand_id", Value.vstr "b1")]
      true [(Value.vstr "b1", Value.vstr "b2")] [] := by decide

/-- Claim C6 (amended): the customer projection is idempotent
unconditionally; the product projection is idempotent when the brand and
supplier mappings are empty and the projected payload is null-free (with a
non-empty mapping, re-projection drops already-mapped brand and supplier
references, and a null `is_active` copied by the rename is dropped by the
second pass). -/
theorem claim_C6 :
    (∀ c : Record, transform_customer_for_creation (transform_customer_for_creation c) =
      transform_customer_for_creation c) ∧
    (∀ (p : Record) (ti : Bool),
      (∀ kv ∈ transform_product_for_creation p ti [] [], kv.2.isNull = false) →
      transform_product_for_creation (transform_product_for_creation p ti [] []) ti [] [] =
        transform_product_for_creation p ti [] []) :=
  ⟨transform_customer_idem, transform_product_empty_idem⟩

/-- Witness for C6 (amended): idempotence at a concrete customer and a
concrete product with empty mappings and a null-free payload. -/
theorem claim_C6_witness :
    transform_customer_for_creation (transform_customer_for_creation
      [("first_name", Value.vstr "John"), ("balance", Value.vint 5)]) =
      transform_customer_for_creation
        [("first_name", Value.vstr "John"), ("balance", Value.vint 5)] ∧
    transform_product_for_creation (transform_product_for_creation
      [("name", Value.vstr "Product"), ("sku", Value.vstr "SKU-001"),
       ("active", Value.vbool true)] true [] []) true [] [] =
      transform_product_for_creation
        [("name", Value.vstr "Product"), ("sku", Value.vstr "SKU-001"),
         ("active", Value.vbool true)] true [] [] :=
  ⟨claim_C6.1 [("first_name", Value.vstr "John"), ("balance", Value.vint 5)],
   claim_C6.2 [("name", Value.vstr "Product"), ("sku", Value.vstr "SKU-001"),
     ("active", Value.vbool true)] true (by decide)⟩
